import Mathlib

/-!
A verification development for the YouTube trending-data visualization
repository.  The data-aggregation core (`src/js/data-loader.js`) is shallowly
embedded here: JS strings become `List Char`, JS numbers become `Int`
(exact integers; the dataset values are integral and well inside the
float53-exact range) or `ℚ` where the code divides, JS `null`/`undefined`
become `Option`, and JS objects used as string-keyed dictionaries become
insertion-ordered association lists (JS objects enumerate string keys in
insertion order).  Every definition mirrors the corresponding function of
`data-loader.js`; theorems at the end settle the specification claims.
-/

namespace YTViz

/-- JS strings are modelled as lists of characters. -/
abbrev Str := List Char

/-- Embed a Lean string literal into the model. -/
def str (s : String) : Str := s.data

/-- Characters treated as whitespace by JS `trim`, `split` skipping and
`parseInt` (the model covers the ASCII whitespace actually occurring in the
dataset). -/
def isJSSpace (c : Char) : Bool := c = ' ' ∨ c = '\t' ∨ c = '\n' ∨ c = '\r'

/-- JS `String.prototype.trim`: drop whitespace from both ends. -/
def jsTrim (s : Str) : Str :=
  ((s.dropWhile isJSSpace).reverse.dropWhile isJSSpace).reverse

/-- Accumulator form of `splitOn` (JS `String.prototype.split` with a
one-character separator). -/
def splitOnAux (sep : Char) (cur : Str) : Str → List Str
  | [] => [cur.reverse]
  | c :: rest =>
    if c = sep then cur.reverse :: splitOnAux sep [] rest
    else splitOnAux sep (c :: cur) rest

/-- JS `s.split(sep)` for a single-character separator: always returns a
non-empty list of pieces; `"".split(sep)` is `[""]`. -/
def splitOn (sep : Char) (s : Str) : List Str := splitOnAux sep [] s

/-- JS `String.prototype.toLowerCase` (ASCII-relevant part). -/
def toLowerStr (s : Str) : Str := s.map Char.toLower

/-- Does `s` start with `pat`? -/
def leadsWith : Str → Str → Bool
  | _, [] => true
  | [], _ :: _ => false
  | c :: s, p :: ps => c = p && leadsWith s ps

/-- Does `s` end with `pat`? -/
def trailsWith (s pat : Str) : Bool := leadsWith s.reverse pat.reverse

/-- JS `String.prototype.includes`. -/
def containsStr : Str → Str → Bool
  | [], pat => pat.isEmpty
  | s@(_ :: rest), pat => leadsWith s pat || containsStr rest pat

/-- Decimal digit test. -/
def isDigit10 (c : Char) : Bool := '0' ≤ c ∧ c ≤ '9'

/-- Hexadecimal digit test. -/
def isHexDigit (c : Char) : Bool :=
  ('0' ≤ c ∧ c ≤ '9') ∨ ('a' ≤ c ∧ c ≤ 'f') ∨ ('A' ≤ c ∧ c ≤ 'F')

/-- Numeric value of a (decimal or hex) digit character. -/
def digitVal (c : Char) : Nat :=
  if '0' ≤ c ∧ c ≤ '9' then c.toNat - ('0').toNat
  else if 'a' ≤ c ∧ c ≤ 'f' then c.toNat - ('a').toNat + 10
  else if 'A' ≤ c ∧ c ≤ 'F' then c.toNat - ('A').toNat + 10
  else 0

/-- Value of a digit string in the given base. -/
def digitsVal (base : Nat) (ds : Str) : Nat :=
  ds.foldl (fun acc c => acc * base + digitVal c) 0

/-- Magnitude part of JS `parseInt` with no radix argument: auto-detect a
`0x`/`0X` hex prefix, then take the longest prefix of digits; `none`
models the JS result `NaN` (no digits at all). -/
def jsParseIntMag (s : Str) : Option Nat :=
  match s with
  | '0' :: 'x' :: r =>
    if r.takeWhile isHexDigit = [] then none else some (digitsVal 16 (r.takeWhile isHexDigit))
  | '0' :: 'X' :: r =>
    if r.takeWhile isHexDigit = [] then none else some (digitsVal 16 (r.takeWhile isHexDigit))
  | _ =>
    if s.takeWhile isDigit10 = [] then none else some (digitsVal 10 (s.takeWhile isDigit10))

/-- JS `parseInt(s)` (radix argument omitted, as in the source): skip
whitespace, read an optional sign, then the magnitude. -/
def jsParseInt (s0 : Str) : Option Int :=
  match s0.dropWhile isJSSpace with
  | '-' :: r => (jsParseIntMag r).map (fun v => -(v : Int))
  | '+' :: r => (jsParseIntMag r).map (fun v => (v : Int))
  | s => (jsParseIntMag s).map (fun v => (v : Int))

/-- Decimal rendering of an integer, as JS template literals do. -/
def intToStr (n : Int) : Str := (toString n).data

/-- JS `Math.round` on an exact rational: round half toward `+∞`. -/
def jsRound (q : ℚ) : Int := Int.floor (q + 1 / 2)

/-! ### Calendar arithmetic

JS `Date` values constructed by the source always sit at local midnight, so
a date is represented by its day number relative to 1970-01-01 (Howard
Hinnant's `days_from_civil` algorithm, which is how JS time values are
specified, up to the factor of 86 400 000 ms per day). -/

/-- Day number of the calendar date `y-m-d` (relative to 1970-01-01),
for month `m ∈ [1,12]` and any day `d` (out-of-range days simply offset). -/
def daysFromCivil (y m d : Int) : Int :=
  let y2 := if m ≤ 2 then y - 1 else y
  let era := y2.fdiv 400
  let yoe := y2 - era * 400
  let mp := if 2 < m then m - 3 else m + 9
  let doy := (153 * mp + 2).fdiv 5 + d - 1
  let doe := yoe * 365 + yoe.fdiv 4 - yoe.fdiv 100 + doy
  era * 146097 + doe - 719468

/-- The calendar year containing day number `z` (JS `Date.getFullYear` for a
date at local midnight). -/
def civilYear (z0 : Int) : Int :=
  let z := z0 + 719468
  let era := z.fdiv 146097
  let doe := z - era * 146097
  let yoe := (doe - doe.fdiv 1460 + doe.fdiv 36524 - doe.fdiv 146096).fdiv 365
  let y := yoe + era * 400
  let doy := doe - (365 * yoe + yoe.fdiv 4 - yoe.fdiv 100)
  let mp := (5 * doy + 2).fdiv 153
  let m := mp + (if mp < 10 then 3 else -9)
  if m ≤ 2 then y + 1 else y

/-- A JS `Date` object: either an Invalid Date (its time value is `NaN`;
note such an object is still truthy) or a valid date at local midnight,
identified by its day number. -/
inductive JSDate where
  | invalid
  | valid (days : Int)
deriving DecidableEq

/-- ECMA-262 `MakeFullYear`: in the `Date` constructor an integer year
argument in `[0, 99]` denotes `1900 + year`. -/
def jsMakeFullYear (y : Int) : Int := if 0 ≤ y ∧ y ≤ 99 then 1900 + y else y

/-- ECMA-262 `MakeDay` (all arguments finite integers): months out of
`[0,11]` and days out of range roll over. -/
def jsMakeDay (year monthIndex day : Int) : Int :=
  let ym := year + monthIndex.fdiv 12
  let mn := monthIndex.fmod 12
  daysFromCivil ym (mn + 1) 1 + (day - 1)

/-- JS `new Date(year, monthIndex, day)` (all arguments finite integers):
`MakeFullYear` on the year, `MakeDay` rollover, then `TimeClip` — a time
value beyond ±8.64e15 ms, i.e. a day number beyond ±100 000 000, is an
Invalid Date.  (At exactly the two boundary days validity additionally
depends on the runtime's UTC offset; the model takes the UTC behaviour,
and every theorem below stays far inside the boundary.) -/
def jsNewDate (year monthIndex day : Int) : JSDate :=
  let days := jsMakeDay (jsMakeFullYear year) monthIndex day
  if -100000000 ≤ days ∧ days ≤ 100000000 then .valid days else .invalid

/-- `DataLoader.parseTrendingDate` (data-loader.js:126-139): split on `.`;
with exactly three parts build `new Date(2000 + p0, p2 - 1, p1)` (an
Invalid Date when any part fails `parseInt` or the time value is clipped);
otherwise return `null` (the `try`/`catch` is dead: nothing in the body
throws). -/
def parseTrendingDate (dateStr : Str) : Option JSDate :=
  match splitOn ('.') dateStr with
  | [a, b, c] =>
    match jsParseInt a, jsParseInt b, jsParseInt c with
    | some y, some d, some m => some (jsNewDate (2000 + y) (m - 1) d)
    | _, _, _ => some .invalid
  | _ => none

/-! ### CSV parsing -/

/-- Accumulator form of `parseCSVLine`. -/
def parseCSVLineAux (inQuotes : Bool) (cur : Str) : Str → List Str
  | [] => [cur.reverse]
  | c :: rest =>
    if c = '"' then parseCSVLineAux (!inQuotes) cur rest
    else if c = ',' ∧ inQuotes = false then cur.reverse :: parseCSVLineAux inQuotes [] rest
    else parseCSVLineAux inQuotes (c :: cur) rest

/-- `DataLoader.parseCSVLine` (data-loader.js:103-123): split on commas,
treating double-quote-delimited spans as literal. -/
def parseCSVLine (line : Str) : List Str := parseCSVLineAux false [] line

/-- Last binding of a key in an association list; JS object assignment in a
`forEach` loop lets the **last** duplicate header win. -/
def lastAssoc (ps : List (Str × Str)) (k : Str) : Option Str :=
  (ps.reverse.find? (fun p => decide (p.1 = k))).map Prod.snd

/-- First binding of a key (JS property read on an object built with
create-if-absent updates, where keys are unique). -/
def jsLookup {α β : Type} [DecidableEq α] (k : α) : List (α × β) → Option β
  | [] => none
  | (k2, v) :: rest => if k2 = k then some v else jsLookup k rest

/-- One parsed video row (the fields of the JS row object that the
aggregation functions read). -/
structure Row where
  country : Str
  video_id : Str
  title : Str
  channel_title : Str
  category_id : Int
  category_name : Str
  publish_time : Str
  tags : Str
  trending_date : Str
  /-- `none` models both an unset property (falsy `trending_date`) and the
  `null` returned by `parseTrendingDate`; both are falsy in the guards. -/
  trending_date_parsed : Option JSDate
  views : Int
  likes : Int
  dislikes : Int
  comment_count : Int
deriving DecidableEq

/-- A per-country category map (`this.categories`), keyed by category id.
JS object keys are strings and `row.category_id` is coerced to its decimal
string on lookup; integer keys model this faithfully for integral ids. -/
abbrev Categories := List (Str × List (Int × Str))

/-- Build one row object from a data line (body of the `parseCSV` loop,
data-loader.js:69-96): rows with fewer fields than the header are dropped;
each field is the trimmed cell (or `""` when falsy); the four numeric
fields are `parseInt(...) || 0`; the category name falls back to
`"Unknown"`; the trending date is parsed only when present. -/
def mkRow (cats : Categories) (country : Str) (headers : List Str) (line : Str) :
    Option Row :=
  let values := parseCSVLine line
  if headers.length ≤ values.length then
    let assoc := (headers.map jsTrim).zip (values.map jsTrim)
    let get : Str → Str := fun k => (lastAssoc assoc k).getD []
    let views := (jsParseInt (get (str ("views")))).getD 0
    let likes := (jsParseInt (get (str ("likes")))).getD 0
    let dislikes := (jsParseInt (get (str ("dislikes")))).getD 0
    let comment_count := (jsParseInt (get (str ("comment_count")))).getD 0
    let category_id := (jsParseInt (get (str ("category_id")))).getD 0
    let category_name :=
      match jsLookup country cats with
      | some catMap =>
        match jsLookup category_id catMap with
        | some t => if t = [] then str ("Unknown") else t
        | none => str ("Unknown")
      | none => str ("Unknown")
    let td := get (str ("trending_date"))
    some {
      country := country
      video_id := get (str ("video_id"))
      title := get (str ("title"))
      channel_title := get (str ("channel_title"))
      category_id := category_id
      category_name := category_name
      publish_time := get (str ("publish_time"))
      tags := get (str ("tags"))
      trending_date := td
      trending_date_parsed := if td ≠ [] then parseTrendingDate td else none
      views := views
      likes := likes
      dislikes := dislikes
      comment_count := comment_count }
  else none

/-- `DataLoader.parseCSV` (data-loader.js:60-100): trim the text, split into
lines, read the header from line 0 with a plain comma split, then process
the data lines `i ∈ [1, min(lines.length, 1001))` — i.e. at most the first
1000 data lines. -/
def parseCSV (cats : Categories) (text : Str) (country : Str) : List Row :=
  let lines := splitOn ('\n') (jsTrim text)
  let headers := splitOn (',') (lines.headD [])
  ((lines.drop 1).take 1000).filterMap (mkRow cats country headers)

/-! ### Aggregation engine -/

/-- `this.videoData`: the per-country row collections, as an
insertion-ordered association list (JS object keys are unique). -/
abbrev VideoData := List (Str × List Row)

/-- All rows of all countries, `Object.values(this.videoData).flat()`. -/
def allRows (vd : VideoData) : List Row := (vd.map Prod.snd).flatten

/-- One entry of the `getViewsByCountry` result. -/
structure CountryViews where
  totalViews : Int
  /-- `totalViews / videoCount` as a JS number; `none` models the `NaN`
  produced by `0 / 0` for a country with no rows. -/
  avgViews : Option ℚ
  videoCount : Nat
deriving DecidableEq

/-- The record built for one country by `getViewsByCountry`. -/
def countryViewsOf (rows : List Row) : CountryViews :=
  { totalViews := (rows.map Row.views).sum
    avgViews :=
      if rows.length = 0 then none
      else some (((rows.map Row.views).sum : ℚ) / (rows.length : ℚ))
    videoCount := rows.length }

/-- `DataLoader.getViewsByCountry` (data-loader.js:142-154). -/
def getViewsByCountry (vd : VideoData) : List (Str × CountryViews) :=
  vd.map fun p => (p.1, countryViewsOf p.2)

/-- One point of the `getViewsVsLikes` result. -/
structure ScatterPoint where
  views : Int
  likes : Int
  title : Str
  country : Str
  category : Str
deriving DecidableEq

/-- The `filters` argument of `getViewsVsLikes`; `none` models an absent
(or non-finite) bound, for which the source substitutes `0` / `Infinity`. -/
structure VLFilters where
  minViews : Option Int
  maxViews : Option Int
  minLikes : Option Int
  maxLikes : Option Int

/-- `DataLoader.getViewsVsLikes` (data-loader.js:188-217).  The
`sort(() => 0.5 - Math.random())` shuffle is modelled by an arbitrary
`shuffle` argument; JS `Array.prototype.sort` always returns a permutation
of its input, which the theorems take as a hypothesis. -/
def getViewsVsLikes (shuffle : List Row → List Row) (vd : VideoData)
    (sampleSize : Nat) (country : Str) (filters : VLFilters) : List ScatterPoint :=
  let videos := if country = str ("all") then allRows vd else (jsLookup country vd).getD []
  let minViews := filters.minViews.getD 0
  let maxViewsOk : Int → Bool := fun v =>
    match filters.maxViews with
    | none => true
    | some m => decide (v ≤ m)
  let minLikes := filters.minLikes.getD 0
  let maxLikesOk : Int → Bool := fun v =>
    match filters.maxLikes with
    | none => true
    | some m => decide (v ≤ m)
  let sampled :=
    ((shuffle ((((videos.filter (fun v => decide (0 < v.views) && decide (0 < v.likes))).filter
        (fun v => decide (minViews ≤ v.views) && maxViewsOk v.views)).filter
        (fun v => decide (minLikes ≤ v.likes) && maxLikesOk v.likes)))).take sampleSize)
  sampled.map fun v => {
    views := v.views
    likes := v.likes
    title := v.title
    country := v.country
    category := v.category_name }

/-- Insertion-ordered set insertion (JS `Set.prototype.add`). -/
def addSet {α : Type} [DecidableEq α] (x : α) (l : List α) : List α :=
  if x ∈ l then l else l ++ [x]

/-- Collect a JS `Set` from a list, keeping first-insertion order. -/
def listToSet {α : Type} [DecidableEq α] (l : List α) : List α :=
  l.foldl (fun acc x => addSet x acc) []

/-- Lexicographic string comparison by character code (JS default string
ordering, used by `Array.prototype.sort()` with no comparator and by
string `<`). -/
def strLEb : Str → Str → Bool
  | [], _ => true
  | _ :: _, [] => false
  | a :: as, b :: bs => if a.toNat = b.toNat then strLEb as bs else decide (a.toNat < b.toNat)

/-- The same string order as a decidable relation.  JS `Array.prototype.sort`
is a stable sort, and a stable sort's output is uniquely determined by the
comparator, so the structural (and stable) insertion sort used by this model
computes exactly what the JS engine's stable sort returns. -/
def strLE (a b : Str) : Prop := strLEb a b = true

instance : DecidableRel strLE := fun a b => by unfold strLE; infer_instance

/-- One cell of the `getHeatmapData` result. -/
structure HeatCell where
  country : Str
  category : Str
  /-- `(count / totalVideos) * 100`, or 0 for a country with no videos. -/
  value : ℚ
  count : Nat
  totalVideos : Nat
deriving DecidableEq

/-- The `getHeatmapData` result. -/
structure HeatmapResult where
  data : List HeatCell
  categories : List Str
  countries : List Str
deriving DecidableEq

/-- The sorted list of distinct (truthy) category names across all loaded
videos (`allCategories` in the source). -/
def heatmapCategories (vd : VideoData) : List Str :=
  List.insertionSort strLE (listToSet ((allRows vd).filterMap
    (fun v => if v.category_name ≠ [] then some v.category_name else none)))

/-- Videos of one country with the given (truthy) category name
(`categoryCounts[category]` in the source counts exactly these). -/
def heatCount (rows : List Row) (cat : Str) : Nat :=
  (rows.filter (fun v => decide (v.category_name ≠ []) && decide (v.category_name = cat))).length

/-- The cells emitted for one country of the heatmap (inner
`categories.forEach` of the source). -/
def heatCellsFor (categories : List Str) (p : Str × List Row) : List HeatCell :=
  categories.map fun cat =>
    { country := p.1
      category := cat
      value :=
        if 0 < p.2.length then ((heatCount p.2 cat : ℚ) / (p.2.length : ℚ)) * 100 else 0
      count := heatCount p.2 cat
      totalVideos := p.2.length }

/-- `DataLoader.getHeatmapData` (data-loader.js:530-587): one cell per
(country, category) pair; the `try`/`catch` is dead code (nothing in the
body throws).  Iterating the entries of `videoData` is JS
`Object.keys(...).forEach` with its per-key lookup. -/
def getHeatmapData (vd : VideoData) : HeatmapResult :=
  { data := vd.flatMap (heatCellsFor (heatmapCategories vd))
    categories := heatmapCategories vd
    countries := vd.map Prod.fst }

/-! ### Publishing timing (`getPublishingTimingData`) -/

/-- The day-of-week / hour-of-day of `new Date(video.publish_time)` in
local time, or `none` when that date is invalid.  Parsing a JS date string
and reading `getDay`/`getHours` depends on the runtime's local time zone,
so it is an explicit parameter of the model. -/
abbrev PublishParse := Str → Option (Int × Int)

/-- Where a video lands in the 7×24 grid: `none` when `publish_time` is
falsy (skipped by the guard), the date is invalid, or the day/hour range
check fails. -/
def timingSlotOf (pp : PublishParse) (v : Row) : Option (Int × Int) :=
  if v.publish_time = [] then none
  else
    match pp v.publish_time with
    | none => none
    | some (d, h) => if 0 ≤ d ∧ d ≤ 6 ∧ 0 ≤ h ∧ h ≤ 23 then some (d, h) else none

/-- Rows selected by country for the timing grid (`'global'` sentinel). -/
def timingRows (vd : VideoData) (selectedCountry : Str) : List Row :=
  if selectedCountry = str ("global") then allRows vd else (jsLookup selectedCountry vd).getD []

/-- The rows accumulated into grid cell `(day, hour)`. -/
def timingCellRows (pp : PublishParse) (videos : List Row) (day hour : Int) : List Row :=
  videos.filter fun v => decide (timingSlotOf pp v = some (day, hour))

/-- The 7×24 grid of per-cell row lists, in the day-major order the
source's nested loops traverse. -/
def timingGrid (pp : PublishParse) (videos : List Row) : List (List Row) :=
  (List.range 7).flatMap fun (day : Nat) => (List.range 24).map fun (hour : Nat) =>
    timingCellRows pp videos (Int.ofNat day) (Int.ofNat hour)

/-- The overall average views across all counted videos (`overallAvgViews`
in the source): total views and total count are accumulated cell by cell,
skipping empty cells. -/
def overallAvgViews (pp : PublishParse) (vd : VideoData) (selectedCountry : Str) : ℚ :=
  let cells := timingGrid pp (timingRows vd selectedCountry)
  let totalViews : Int := (cells.map fun slot =>
    if 0 < slot.length then (slot.map Row.views).sum else 0).sum
  let totalVideos : Nat := (cells.map fun slot =>
    if 0 < slot.length then slot.length else 0).sum
  if 0 < totalVideos then (totalViews : ℚ) / (totalVideos : ℚ) else 0

/-- One cell of the `getPublishingTimingData` heatmap array. -/
structure TimingCell where
  day : Int
  hour : Int
  count : Nat
  avgViews : ℚ
  avgLikes : ℚ
  avgComments : ℚ
  totalViews : Int
  successRate : ℚ
deriving DecidableEq

/-- `DataLoader.getPublishingTimingData` (data-loader.js:590-712), the
`data` array: a 7×24 grid ordered day-major; the success rate is
`min(100, (avgViews / overallAvgViews) * 100)` for a non-empty cell when
the overall average is positive, and 0 otherwise. -/
def getPublishingTimingData (pp : PublishParse) (vd : VideoData)
    (selectedCountry : Str) : List TimingCell :=
  let videos := timingRows vd selectedCountry
  let overall := overallAvgViews pp vd selectedCountry
  (List.range 7).flatMap fun (day : Nat) => (List.range 24).map fun (hour : Nat) =>
    let slot := timingCellRows pp videos (Int.ofNat day) (Int.ofNat hour)
    let count := slot.length
    let avgViews : ℚ := if 0 < count then ((slot.map Row.views).sum : ℚ) / (count : ℚ) else 0
    ({ day := Int.ofNat day
       hour := Int.ofNat hour
       count := count
       avgViews := avgViews
       avgLikes := if 0 < count then ((slot.map Row.likes).sum : ℚ) / (count : ℚ) else 0
       avgComments := if 0 < count then ((slot.map Row.comment_count).sum : ℚ) / (count : ℚ) else 0
       totalViews := (slot.map Row.views).sum
       successRate := if 0 < count ∧ 0 < overall then min 100 ((avgViews / overall) * 100) else 0 } : TimingCell)

/-! ### Tag cleaning (shared by `getTagEvolutionData`, `getTagRacingData`,
`getTagFlowData`) -/

/-- The fixed stoplist of "none/empty/placeholder" tokens. -/
def nonePatterns : List Str :=
  [str ("none"), str ("[none]"), str ("n/a"), str ("na"), str ("null"),
   str ("undefined"), str ("no tag"), str ("no tags"), str ("notag"),
   str ("notags"), str ("empty"), str ("blank"), str ("-"), str ("_"),
   str ("."), str ("[n/a]"), str ("[na]"), str ("[null]"), str ("[empty]"),
   str ("[blank]")]

/-- Normalize one raw token: `tag.replace(/"/g, '').trim().toLowerCase()`. -/
def normalizeTag (t : Str) : Str := toLowerStr (jsTrim (t.filter (fun c => decide (c ≠ '"'))))

/-- Is `inner` (the token without its surrounding brackets) a stoplist
entry? Applied only when the token starts with `[` and ends with `]`. -/
def bracketedNone (t : Str) : Bool :=
  leadsWith t (str ("[")) && trailsWith t (str ("]")) &&
    nonePatterns.contains (t.drop 1).dropLast

/-- Does the token contain `none` as a standalone word? -/
def hasNoneWord (t : Str) : Bool :=
  containsStr t (str ("none")) &&
    (decide (t = str ("none")) || leadsWith t (str ("none ")) ||
     trailsWith t (str (" none")) || containsStr t (str (" none ")))

/-- The tag filter of `getTagEvolutionData`/`getTagRacingData`
(data-loader.js:729-759 and 906-916): maximum length 30, stoplist
(plain and bracketed), and the standalone-`none`-word check. -/
def evoTagOk (t : Str) : Bool :=
  if t = [] ∨ t.length ≤ 2 ∨ 30 ≤ t.length then false
  else if nonePatterns.contains t then false
  else if bracketedNone t then false
  else if hasNoneWord t then false
  else true

/-- The shared per-video tag-cleaning of `getTagEvolutionData` and
`getTagRacingData`: split on `|`, normalize, filter, keep at most 8. -/
def cleanVideoTags (tags : Str) : List Str :=
  (((splitOn ('|') tags).map normalizeTag).filter evoTagOk).take 8

/-- The tag filter of `getTagFlowData` (data-loader.js:1062-1071):
maximum length 25, stoplist (plain and bracketed), and no
standalone-`none`-word check, no 8-tag cap. -/
def flowTagOk (t : Str) : Bool :=
  if t = [] ∨ t.length ≤ 2 ∨ 25 ≤ t.length then false
  else if nonePatterns.contains t then false
  else if bracketedNone t then false
  else true

/-- The per-video tag-cleaning of `getTagFlowData`. -/
def cleanFlowTags (tags : Str) : List Str :=
  ((splitOn ('|') tags).map normalizeTag).filter flowTagOk

/-- Create-if-absent-then-update on an insertion-ordered association list:
JS `if (!m[k]) m[k] = d; ⟨update m[k]⟩`. -/
def updAssoc {α β : Type} [DecidableEq α] (k : α) (d : β) (f : β → β) :
    List (α × β) → List (α × β)
  | [] => [(k, f d)]
  | (k2, v) :: rest =>
    if k2 = k then (k2, f v) :: rest else (k2, v) :: updAssoc k d f rest

/-! ### Tag racing (`getTagRacingData`) -/

/-- Per-tag, per-period accumulator. -/
structure PeriodStat where
  count : Nat
  totalViews : Int
  totalLikes : Int
deriving DecidableEq

/-- The runtime's local clock: `lm d` is the epoch-millisecond time value
(`Date.prototype.getTime`) of local midnight of day number `d` under the
time zone the program runs in.  In a zone at fixed offset `c` ms east of
UTC it is `fun d => d * 86400000 - c`; a zone with daylight-saving time is
not of that shape.  Like `PublishParse`, this environment dependency is an
explicit parameter of the embedding. -/
abbrev LocalClock := Int → Int

/-- The UTC runtime clock (offset 0, no DST). -/
def lmUTC : LocalClock := fun d => d * 86400000

/-- An America/New_York-like runtime clock around spring 2018: local
midnight is at 05:00 UTC before the DST transition of 2018-03-11 and at
04:00 UTC from that day on. -/
def lmNY : LocalClock := fun d =>
  d * 86400000 + (if d < daysFromCivil 2018 3 11 then 5 * 3600000 else 4 * 3600000)

/-- The period label of a trending date (data-loader.js:900-901):
`Week ${floor((date.getTime() - new Date(date.getFullYear(), 0, 1).getTime()) / oneWeekMs) + 1}`
under the runtime clock `lm`.  The inner constructor applies
`MakeFullYear` and `TimeClip` (`jsNewDate`); an Invalid Date — as the
trending date (truthy, so it passes the guard) or as the constructed
Jan 1 — makes the quotient `NaN` and the label `"Week NaN"`. -/
def periodKeyOf (lm : LocalClock) : JSDate → Str
  | .invalid => str ("Week NaN")
  | .valid d =>
    match jsNewDate (civilYear d) 0 1 with
    | .invalid => str ("Week NaN")
    | .valid j => str ("Week ") ++ intToStr ((lm d - lm j).fdiv 604800000 + 1)

/-- Accumulator state of the racing scan: `tagPeriodData` and the period
`Set`, both in insertion order. -/
structure RacingState where
  tagPeriodData : List (Str × List (Str × PeriodStat))
  periods : List Str

/-- Process one video (body of the `videosToProcess.forEach`,
data-loader.js:897-934) under the runtime clock `lm`. -/
def racingStep (lm : LocalClock) (st : RacingState) (v : Row) : RacingState :=
  if v.tags = [] then st
  else
    match v.trending_date_parsed with
    | none => st
    | some jd =>
      let periodKey := periodKeyOf lm jd
      let st1 : RacingState := { st with periods := addSet periodKey st.periods }
      (cleanVideoTags v.tags).foldl
        (fun st2 tag =>
          { st2 with tagPeriodData :=
              (updAssoc tag []
                (updAssoc periodKey ({ count := 0, totalViews := 0, totalLikes := 0 } : PeriodStat)
                  (fun p => ({ count := p.count + 1, totalViews := p.totalViews + v.views, totalLikes := p.totalLikes + v.likes } : PeriodStat)))
                st2.tagPeriodData) })
        st1

/-- The `(tagLimit, minOccurrences)` preset selected by `filterType`. -/
def racingPresets (filterType : Str) : Nat × Nat :=
  if filterType = str ("top-tags") then (10, 10)
  else if filterType = str ("trending") then (8, 15)
  else (15, 5)

/-- Total occurrence count of one tag across its periods. -/
def racingTotalCount (m : List (Str × PeriodStat)) : Nat :=
  (m.map (fun q => q.2.count)).sum

/-- One entry of a period's ranking. -/
structure RacingEntry where
  tag : Str
  count : Nat
  totalViews : Int
  totalLikes : Int
deriving DecidableEq

/-- One period of the racing result. -/
structure RacingPeriod where
  period : Str
  tags : List RacingEntry
deriving DecidableEq

/-- The `getTagRacingData` result. -/
structure RacingResult where
  racingData : List RacingPeriod
  tags : List Str
  periods : List Str
deriving DecidableEq

/-- `DataLoader.getTagRacingData` (data-loader.js:883-994): scan the
selected rows, sort the period labels with the default (string) sort,
keep the tags with at least `minOccurrences` total occurrences ranked by
descending total count (stable, as JS sort is), and emit per-period
rankings over exactly the sorted periods.  `lm` is the runtime clock. -/
def getTagRacingData (lm : LocalClock) (vd : VideoData) (filterType selectedCountry : Str) : RacingResult :=
  let videos := if selectedCountry = str ("global") then allRows vd
    else (jsLookup selectedCountry vd).getD []
  let st := videos.foldl (racingStep lm) { tagPeriodData := [], periods := [] }
  let sortedPeriods := List.insertionSort strLE st.periods
  let p := racingPresets filterType
  let significantTags :=
    (((List.insertionSort (fun a b => racingTotalCount b.2 ≤ racingTotalCount a.2)
        (st.tagPeriodData.filter (fun tp => decide (p.2 ≤ racingTotalCount tp.2)))).take p.1).map
      Prod.fst)
  let racingData := sortedPeriods.map fun period =>
    ({ period := period
       tags := (significantTags.map fun tag =>
          match (jsLookup tag st.tagPeriodData).bind (jsLookup period) with
          | some q => ({ tag := tag, count := q.count, totalViews := q.totalViews,
                         totalLikes := q.totalLikes } : RacingEntry)
          | none => { tag := tag, count := 0, totalViews := 0, totalLikes := 0 }).insertionSort
        (fun a b => b.count ≤ a.count) } : RacingPeriod)
  { racingData := racingData, tags := significantTags, periods := sortedPeriods }

/-! ### Tag flow (`getTagFlowData`) -/

/-- Per-tag statistics (`tagStats`). -/
structure TagStat where
  count : Nat
  totalViews : Int
  categories : List Str
deriving DecidableEq

/-- Per-category statistics (`categoryStats`). -/
structure CatStat where
  count : Nat
  totalViews : Int
  tags : List Str
deriving DecidableEq

/-- One tag→category pair accumulator (`tagCategoryPairs[pairKey]`). -/
structure PairStat where
  tag : Str
  category : Str
  count : Nat
  totalViews : Int
  totalLikes : Int
deriving DecidableEq

/-- Accumulator state of the flow scan. -/
structure FlowState where
  pairs : List (Str × PairStat)
  tagStats : List (Str × TagStat)
  catStats : List (Str × CatStat)

/-- Process one tag occurrence of one video (body of the inner
`videoTags.forEach`, data-loader.js:1074-1106).  The pair key is the JS
template string `` `${tag}→${category}` ``. -/
def flowTagStep (category : Str) (views likes : Int) (st : FlowState) (tag : Str) : FlowState :=
  { pairs :=
      updAssoc (tag ++ str ("→") ++ category)
        ({ tag := tag, category := category, count := 0, totalViews := 0, totalLikes := 0 } : PairStat)
        (fun pr => { pr with count := pr.count + 1, totalViews := pr.totalViews + views, totalLikes := pr.totalLikes + likes })
        st.pairs
    tagStats :=
      updAssoc tag ({ count := 0, totalViews := 0, categories := [] } : TagStat)
        (fun t => { count := t.count + 1, totalViews := t.totalViews + views, categories := addSet category t.categories })
        st.tagStats
    catStats :=
      updAssoc category ({ count := 0, totalViews := 0, tags := [] } : CatStat)
        (fun c => { count := c.count + 1, totalViews := c.totalViews + views, tags := addSet tag c.tags })
        st.catStats }

/-- Process one video (data-loader.js:1054-1108).  `parseInt(video.views)`
re-parses the already-numeric field; on the integers of this model that is
the identity, so `views`/`likes` are used directly. -/
def flowVideoStep (st : FlowState) (v : Row) : FlowState :=
  if v.tags ≠ [] ∧ v.category_name ≠ [] then
    (cleanFlowTags v.tags).foldl (flowTagStep (jsTrim v.category_name) v.views v.likes) st
  else st

/-- The `(minFlowValue, tagLimit, categoryLimit)` preset selected by
`filterType`. -/
def flowPresets (filterType : Str) : Nat × Nat × Nat :=
  if filterType = str ("focused") then (8, 12, 6)
  else if filterType = str ("detailed") then (3, 20, 8)
  else (5, 15, 7)

/-- The accumulated flow statistics for the selected country. -/
def flowStats (vd : VideoData) (selectedCountry : Str) : FlowState :=
  let videos := if selectedCountry = str ("global") then allRows vd
    else (jsLookup selectedCountry vd).getD []
  videos.foldl flowVideoStep { pairs := [], tagStats := [], catStats := [] }

/-- The top tags: `tagStats` entries sorted by descending count (stable),
truncated to the preset's tag limit. -/
def flowTopTags (vd : VideoData) (selectedCountry filterType : Str) : List Str :=
  ((List.insertionSort (fun a b => b.2.count ≤ a.2.count)
      (flowStats vd selectedCountry).tagStats).take (flowPresets filterType).2.1).map Prod.fst

/-- The top categories: `categoryStats` entries sorted by descending count
(stable), truncated to the preset's category limit. -/
def flowTopCategories (vd : VideoData) (selectedCountry filterType : Str) : List Str :=
  ((List.insertionSort (fun a b => b.2.count ≤ a.2.count)
      (flowStats vd selectedCountry).catStats).take (flowPresets filterType).2.2).map Prod.fst

/-- One Sankey node.  For a tag node `connections` is the size of the
tag's category set (source field `categories`); for a category node it is
the size of the category's tag set (source field `tags`). -/
structure FlowNode where
  id : Str
  name : Str
  type : Str
  count : Nat
  totalViews : Int
  avgViews : Int
  connections : Nat
deriving DecidableEq

/-- One Sankey link. -/
structure FlowLink where
  source : Nat
  target : Nat
  value : Nat
  tag : Str
  category : Str
  totalViews : Int
  totalLikes : Int
  avgViews : Int
  avgLikes : Int
deriving DecidableEq

/-- The `getTagFlowData` result (nodes and links). -/
structure FlowResult where
  nodes : List FlowNode
  links : List FlowLink
deriving DecidableEq

/-- The significant flows (data-loader.js:1142-1147): pairs whose count
meets the preset's minimum flow value and whose endpoints are both top
entries. -/
def flowSignificant (vd : VideoData) (selectedCountry filterType : Str) : List PairStat :=
  (((flowStats vd selectedCountry).pairs.map Prod.snd).filter fun pr =>
    decide ((flowPresets filterType).1 ≤ pr.count) &&
      decide (pr.tag ∈ flowTopTags vd selectedCountry filterType) &&
      decide (pr.category ∈ flowTopCategories vd selectedCountry filterType))

/-- The tag nodes, in top-tag order (data-loader.js:1155-1167). -/
def flowTagNodes (vd : VideoData) (selectedCountry filterType : Str) : List FlowNode :=
  (flowTopTags vd selectedCountry filterType).enum.map fun q =>
    let info := (jsLookup q.2 (flowStats vd selectedCountry).tagStats).getD
      { count := 0, totalViews := 0, categories := [] }
    ({ id := str ("tag_") ++ intToStr (q.1 : Int)
       name := q.2
       type := str ("tag")
       count := info.count
       totalViews := info.totalViews
       avgViews := jsRound ((info.totalViews : ℚ) / (info.count : ℚ))
       connections := info.categories.length } : FlowNode)

/-- The category nodes, in top-category order (data-loader.js:1170-1183). -/
def flowCatNodes (vd : VideoData) (selectedCountry filterType : Str) : List FlowNode :=
  (flowTopCategories vd selectedCountry filterType).enum.map fun q =>
    let info := (jsLookup q.2 (flowStats vd selectedCountry).catStats).getD
      { count := 0, totalViews := 0, tags := [] }
    ({ id := str ("category_") ++ intToStr (q.1 : Int)
       name := q.2
       type := str ("category")
       count := info.count
       totalViews := info.totalViews
       avgViews := jsRound ((info.totalViews : ℚ) / (info.count : ℚ))
       connections := info.tags.length } : FlowNode)

/-- The links (data-loader.js:1186-1203): one per significant flow, with
the `nodeIndex` of the tag (its position among the top tags) as source
and `topTags.length +` the position of the category as target; the
source's `!== undefined` guards are the two index lookups. -/
def flowLinks (vd : VideoData) (selectedCountry filterType : Str) : List FlowLink :=
  (flowSignificant vd selectedCountry filterType).filterMap fun flow =>
    match (flowTopTags vd selectedCountry filterType).findIdx?
            (fun t => decide (t = flow.tag)),
          (flowTopCategories vd selectedCountry filterType).findIdx?
            (fun c => decide (c = flow.category)) with
    | some si, some ti =>
      some ({ source := si
              target := (flowTopTags vd selectedCountry filterType).length + ti
              value := flow.count
              tag := flow.tag
              category := flow.category
              totalViews := flow.totalViews
              totalLikes := flow.totalLikes
              avgViews := jsRound ((flow.totalViews : ℚ) / (flow.count : ℚ))
              avgLikes := jsRound ((flow.totalLikes : ℚ) / (flow.count : ℚ)) } : FlowLink)
    | _, _ => none

/-- `DataLoader.getTagFlowData` (data-loader.js:1039-1222): emit the tag
nodes first, then the category nodes, then the links. -/
def getTagFlowData (vd : VideoData) (selectedCountry filterType : Str) : FlowResult :=
  { nodes := flowTagNodes vd selectedCountry filterType ++
      flowCatNodes vd selectedCountry filterType
    links := flowLinks vd selectedCountry filterType }

/-! ### Concrete data used by examples, witnesses and counterexamples -/

/-- A row with every field empty/zero, used as a base for concrete rows. -/
def baseRow : Row :=
  { country := [], video_id := [], title := [], channel_title := [],
    category_id := 0, category_name := [], publish_time := [], tags := [],
    trending_date := [], trending_date_parsed := none, views := 0,
    likes := 0, dislikes := 0, comment_count := 0 }

/-- A US row with 100 views. -/
def rowViews100 : Row := { baseRow with country := str ("US"), views := 100, likes := 7 }

/-- A US row with 300 views. -/
def rowViews300 : Row := { baseRow with country := str ("US"), views := 300, likes := 9 }

/-- A row in category `Bcat` carrying the tag `xyz`. -/
def rowCatB1 : Row :=
  { baseRow with tags := str ("xyz"), category_name := str ("Bcat"), views := 10, likes := 1 }

/-- A second row in category `Bcat` carrying the tag `xyz`. -/
def rowCatB2 : Row :=
  { baseRow with tags := str ("xyz"), category_name := str ("Bcat"), views := 20, likes := 2 }

/-- A row in category `Acat` carrying the tag `xyz`. -/
def rowCatA1 : Row :=
  { baseRow with tags := str ("xyz"), category_name := str ("Acat"), views := 30, likes := 3 }

/-- A one-country state whose `Bcat` count (2) exceeds its `Acat` count
(1), while `Acat` precedes `Bcat` alphabetically. -/
def demoHeatVD : VideoData := [(str ("US"), [rowCatB1, rowCatB2, rowCatA1])]

/-- A raw text with a `views` header and 1000 one-cell data lines. -/
def bigText : Str := str ("views") ++ (List.replicate 1000 (str ("\n7"))).flatten

/-- A concrete publish-time parser for the witness. -/
def ppDemo : PublishParse := fun s => if s = str ("t1") then some (1, 10) else none

/-- A row publishing at day 1, hour 10. -/
def rowTiming : Row := { baseRow with publish_time := str ("t1"), views := 50 }

/-- A row with a tag, trending in week 2 of 2018 (2018-01-10). -/
def rowWeek2 : Row :=
  { baseRow with tags := str ("abc"), trending_date_parsed := some (.valid (daysFromCivil 2018 1 10)), views := 5 }

/-- A row with a tag, trending in week 10 of 2018 (2018-03-07). -/
def rowWeek10 : Row :=
  { baseRow with tags := str ("abc"), trending_date_parsed := some (.valid (daysFromCivil 2018 3 7)), views := 6 }

/-- A state spanning weeks 2 and 10, whose labels have different digit
counts. -/
def demoRacingVD : VideoData := [(str ("US"), [rowWeek2, rowWeek10])]

/-- A row with a tag, trending 2018-04-09 — 98 days after Jan 1, and on
the other side of the 2018-03-11 DST transition of `lmNY`. -/
def rowApr9 : Row :=
  { baseRow with tags := str ("abc"), trending_date_parsed := some (.valid (daysFromCivil 2018 4 9)), views := 3 }

/-- A one-row state around the `lmNY` DST transition. -/
def demoDSTVD : VideoData := [(str ("US"), [rowApr9])]

/-! ### Helper lemmas -/

theorem jsLookup_of_mem_nodup {α β : Type} [DecidableEq α] {l : List (α × β)} {k : α} {v : β}
    (h1 : (l.map Prod.fst).Nodup) (h2 : (k, v) ∈ l) : jsLookup k l = some v := by
  induction l with
  | nil => cases h2
  | cons p rest ih =>
    obtain ⟨k2, v2⟩ := p
    simp only [List.map_cons, List.nodup_cons] at h1
    rcases List.mem_cons.mp h2 with h | h
    · injection h with hk hv
      subst hk
      subst hv
      simp [jsLookup]
    · have hk2 : k2 ≠ k := by
        rintro rfl
        exact h1.1 (List.mem_map.mpr ⟨(k2, v), h, rfl⟩)
      simp only [jsLookup, if_neg hk2]
      exact ih h1.2 h

theorem jsLookup_map_value {α β γ : Type} [DecidableEq α] (f : β → γ) (l : List (α × β)) (k : α) :
    jsLookup k (l.map fun p => (p.1, f p.2)) = (jsLookup k l).map f := by
  induction l with
  | nil => rfl
  | cons p rest ih =>
    simp only [List.map_cons, jsLookup]
    by_cases h : p.1 = k
    · simp [h]
    · simp [h, ih]

theorem splitOnAux_ne_nil (sep : Char) (cur s : Str) : splitOnAux sep cur s ≠ [] := by
  induction s generalizing cur with
  | nil => simp [splitOnAux]
  | cons c rest ih =>
    simp only [splitOnAux]
    split
    · simp
    · exact ih _

theorem splitOn_ne_nil (sep : Char) (s : Str) : splitOn sep s ≠ [] :=
  splitOnAux_ne_nil sep [] s

/-- `daysFromCivil` is affine in the day argument. -/
theorem daysFromCivil_day (y m d : Int) :
    daysFromCivil y m d = daysFromCivil y m 1 + (d - 1) := by
  simp only [daysFromCivil]
  ring

/-- For an in-range month, `MakeDay y (m - 1) d` denotes the civil date
`y-m-d` (with day overflow simply offsetting, which `daysFromCivil`
reflects). -/
theorem jsMakeDay_eq (y m d : Int) (h1 : 1 ≤ m) (h2 : m ≤ 12) :
    jsMakeDay y (m - 1) d = daysFromCivil y m d := by
  have hd0 : (m - 1).fdiv 12 = 0 := by
    rw [Int.fdiv_eq_ediv _ (by omega)]
    omega
  have hm0 : (m - 1).fmod 12 = m - 1 := Int.fmod_eq_of_lt (by omega) (by omega)
  simp only [jsMakeDay, hd0, hm0, add_zero]
  rw [daysFromCivil_day y m d]
  ring_nf

/-- For years between 100 and 275000 and in-range months/days the day
number stays far inside the ±100 000 000-day `TimeClip` boundary. -/
theorem daysFromCivil_bounds (y m d : Int) (hy1 : 100 ≤ y) (hy2 : y ≤ 275000)
    (hm1 : 1 ≤ m) (hm2 : m ≤ 12) (hd1 : 1 ≤ d) (hd2 : d ≤ 31) :
    -100000000 ≤ daysFromCivil y m d ∧ daysFromCivil y m d ≤ 100000000 := by
  have h400 : ∀ a : Int, a.fdiv 400 = a / 400 := fun a => Int.fdiv_eq_ediv a (by norm_num)
  have h5 : ∀ a : Int, a.fdiv 5 = a / 5 := fun a => Int.fdiv_eq_ediv a (by norm_num)
  have h4 : ∀ a : Int, a.fdiv 4 = a / 4 := fun a => Int.fdiv_eq_ediv a (by norm_num)
  have h100 : ∀ a : Int, a.fdiv 100 = a / 100 := fun a => Int.fdiv_eq_ediv a (by norm_num)
  simp only [daysFromCivil, h400, h5, h4, h100]
  split_ifs <;> omega

/-- For an in-range civil date between years 100 and 275000, the full
constructor `new Date(y, m - 1, d)` yields the valid date `y-m-d`:
`MakeFullYear` is the identity beyond year 99 and `TimeClip` passes. -/
theorem jsNewDate_eq (y m d : Int) (hy1 : 100 ≤ y) (hy2 : y ≤ 275000)
    (hm1 : 1 ≤ m) (hm2 : m ≤ 12) (hd1 : 1 ≤ d) (hd2 : d ≤ 31) :
    jsNewDate y (m - 1) d = .valid (daysFromCivil y m d) := by
  have hfy : jsMakeFullYear y = y := by
    simp only [jsMakeFullYear]
    rw [if_neg]
    omega
  have hb := daysFromCivil_bounds y m d hy1 hy2 hm1 hm2 hd1 hd2
  simp only [jsNewDate, hfy, jsMakeDay_eq y m d hm1 hm2]
  rw [if_pos ⟨hb.1, hb.2⟩]

/-! ### Claim C8 — shared tag cleaning -/

/-- C8: the shared tag-cleaning normalization with maximum length 30 (as
used by `getTagEvolutionData`/`getTagRacingData`) maps the raw tag string
`"gaming|NONE|[n/a]|x|thisistoolongtobevalidasatagbecauseitexceedsthirtychars"`
to exactly `["gaming"]`: tokens are lowercased and stripped of quotes, and
tokens that are empty, of length ≤ 2 or ≥ 30, or matching a
none/empty/placeholder pattern (plain or bracketed) are discarded. -/
theorem C8_tag_cleaning_example :
    cleanVideoTags
        (str ("gaming|NONE|[n/a]|x|thisistoolongtobevalidasatagbecauseitexceedsthirtychars"))
      = [str ("gaming")] := by
  decide

/-! ### Claim C4 — parseCSV row cap -/

theorem length_filterMap_of_some {α β : Type} (f : α → Option β) (l : List α)
    (h : ∀ a ∈ l, (f a).isSome) : (l.filterMap f).length = l.length := by
  induction l with
  | nil => rfl
  | cons a rest ih =>
    have ha := h a (List.mem_cons_self _ _)
    cases hf : f a with
    | none => rw [hf] at ha; cases ha
    | some b =>
      simp only [List.filterMap_cons, hf, List.length_cons]
      rw [ih (fun x hx => h x (List.mem_cons_of_mem a hx))]

/-- C4: for every raw input text and country code, `parseCSV` returns at
most 1000 rows; its output depends only on the header line and the first
1000 data lines (texts whose first 1001 trimmed lines agree parse to the
same rows); and a text with at least 1000 data lines, each carrying at
least as many cells as the header, parses to exactly 1000 rows — larger
files are truncated at exactly the cap. -/
theorem C4_parseCSV_cap (cats : Categories) (text country : Str) :
    (parseCSV cats text country).length ≤ 1000 ∧
    (∀ text2 : Str,
      (splitOn ('\n') (jsTrim text2)).take 1001 = (splitOn ('\n') (jsTrim text)).take 1001 →
      parseCSV cats text2 country = parseCSV cats text country) ∧
    (1000 ≤ ((splitOn ('\n') (jsTrim text)).drop 1).length →
      (∀ line ∈ ((splitOn ('\n') (jsTrim text)).drop 1).take 1000,
        (mkRow cats country (splitOn (',') ((splitOn ('\n') (jsTrim text)).headD [])) line).isSome) →
      (parseCSV cats text country).length = 1000) := by
  refine ⟨?_, ?_, ?_⟩
  · calc (parseCSV cats text country).length
        ≤ (((splitOn ('\n') (jsTrim text)).drop 1).take 1000).length :=
          List.length_filterMap_le _ _
      _ ≤ 1000 := by rw [List.length_take]; exact min_le_left _ _
  · intro text2 hagree
    have hhead : (splitOn ('\n') (jsTrim text2)).headD [] = (splitOn ('\n') (jsTrim text)).headD [] := by
      obtain ⟨x, xs, hx⟩ := List.exists_cons_of_ne_nil (splitOn_ne_nil '\n' (jsTrim text2))
      obtain ⟨y, ys, hy⟩ := List.exists_cons_of_ne_nil (splitOn_ne_nil '\n' (jsTrim text))
      rw [hx, hy] at hagree ⊢
      simp only [List.take_succ_cons] at hagree
      simp [(List.cons.injEq .. ▸ hagree).1]
    have hdata : ((splitOn ('\n') (jsTrim text2)).drop 1).take 1000 =
        ((splitOn ('\n') (jsTrim text)).drop 1).take 1000 := by
      rw [List.take_drop, List.take_drop, hagree]
    simp only [parseCSV, hhead, hdata]
  · intro hlen hall
    unfold parseCSV
    rw [length_filterMap_of_some _ _ hall, List.length_take]
    omega

/-- Witness for C4: concrete applications — a second text differing only
by trailing whitespace (removed by `trim`) parses identically, and a text
with 1000 one-cell data lines parses to exactly 1000 rows. -/
theorem jsTrim_bigText : jsTrim bigText = bigText := by
  have hflat : ∀ n : Nat, ∃ t : Str,
      ((List.replicate (n + 1) (str ("\n7"))).flatten).reverse = '7' :: t := by
    intro n
    induction n with
    | zero => exact ⟨['\n'], rfl⟩
    | succ n ih =>
      obtain ⟨t, ht⟩ := ih
      refine ⟨t ++ ['7', '\n'], ?_⟩
      have hstep : (List.replicate (n + 1 + 1) (str ("\n7"))).flatten =
          str ("\n7") ++ (List.replicate (n + 1) (str ("\n7"))).flatten := rfl
      rw [hstep, List.reverse_append, ht]
      rfl
  obtain ⟨t, ht⟩ := hflat 999
  have hb : bigText =
      'v' :: (str ("iews") ++ (List.replicate 1000 (str ("\n7"))).flatten) := rfl
  have h1 : bigText.dropWhile isJSSpace = bigText := by
    rw [hb, List.dropWhile_cons, if_neg (by decide)]
  have h2 : bigText.reverse.dropWhile isJSSpace = bigText.reverse := by
    have hrev : bigText.reverse = '7' :: (t ++ (str ("views")).reverse) := by
      have hb2 : bigText.reverse =
          ((List.replicate 1000 (str ("\n7"))).flatten).reverse ++ (str ("views")).reverse := by
        have hb3 : bigText = str ("views") ++ (List.replicate 1000 (str ("\n7"))).flatten := rfl
        rw [hb3, List.reverse_append]
      rw [hb2, show (1000 : Nat) = 999 + 1 from rfl, ht]
      rfl
    rw [hrev, List.dropWhile_cons, if_neg (by decide)]
  show ((bigText.dropWhile isJSSpace).reverse.dropWhile isJSSpace).reverse = bigText
  rw [h1, h2, List.reverse_reverse]

theorem splitOnAux_replicate : ∀ (n : Nat) (cur : Str),
    splitOnAux '\n' cur ((List.replicate n (str ("\n7"))).flatten) =
      cur.reverse :: List.replicate n (str ("7")) := by
  intro n
  induction n with
  | zero => intro cur; simp [splitOnAux]
  | succ n ih =>
    intro cur
    have hstep : splitOnAux '\n' cur ((List.replicate (n + 1) (str ("\n7"))).flatten) =
        cur.reverse :: splitOnAux '\n' ['7'] ((List.replicate n (str ("\n7"))).flatten) := rfl
    rw [hstep, ih ['7']]
    rfl

theorem splitOnAux_push (sep c : Char) (h : ¬ c = sep) (cur s : Str) :
    splitOnAux sep cur (c :: s) = splitOnAux sep (c :: cur) s := by
  simp only [splitOnAux, if_neg h]

theorem splitOn_bigText :
    splitOn ('\n') bigText = str ("views") :: List.replicate 1000 (str ("7")) := by
  have hb : bigText =
      'v' :: 'i' :: 'e' :: 'w' :: 's' :: (List.replicate 1000 (str ("\n7"))).flatten := rfl
  show splitOnAux '\n' [] bigText = _
  rw [hb, splitOnAux_push _ _ (by decide), splitOnAux_push _ _ (by decide),
    splitOnAux_push _ _ (by decide), splitOnAux_push _ _ (by decide),
    splitOnAux_push _ _ (by decide), splitOnAux_replicate 1000 ['s', 'w', 'e', 'i', 'v']]
  rfl

theorem C4_parseCSV_cap_witness :
    (parseCSV [] (str ("views\n100\n300")) (str ("US"))).length ≤ 1000 ∧
    parseCSV [] (str ("views\n100\n300 ")) (str ("US")) =
      parseCSV [] (str ("views\n100\n300")) (str ("US")) ∧
    (parseCSV [] bigText (str ("US"))).length = 1000 :=
  ⟨(C4_parseCSV_cap [] (str ("views\n100\n300")) (str ("US"))).1,
   (C4_parseCSV_cap [] (str ("views\n100\n300")) (str ("US"))).2.1
     (str ("views\n100\n300 ")) (by decide),
   (C4_parseCSV_cap [] bigText (str ("US"))).2.2
     (by
       rw [jsTrim_bigText, splitOn_bigText]
       simp only [List.drop_succ_cons, List.drop_zero, List.length_replicate]
       exact Nat.le_refl 1000)
     (by
       rw [jsTrim_bigText, splitOn_bigText]
       intro line hline
       simp only [List.drop_succ_cons, List.drop_zero, List.take_replicate, Nat.min_self,
         List.mem_replicate] at hline
       rw [hline.2]
       decide)⟩

/-! ### Claim C3 — parseTrendingDate -/

/-- C3 (amended): a three-part dot-separated string whose parts all parse,
with first part (two-digit year) in `[0, 99]`, day in `[1, 31]` and month
in `[1, 12]`, denotes the calendar date `(2000 + p0)-(p2)-(p1)`; a string
that does not split into exactly three parts yields `null`; `"17.14.11"`
gives 2017-11-14 and `"bad"` gives `null`.  (A three-part string with an
unparseable part yields an Invalid Date object, not `null` — see the
counterexample.  Outside the well-formed range the `Date` constructor
semantics take over, as the last two conjuncts check against the faithful
model: a first part of `-1950` makes the year argument `50`, which
`MakeFullYear` turns into 1950, and a huge first part is clipped to an
Invalid Date.) -/
theorem C3_parseTrendingDate :
    (∀ (s a b c : Str) (y d m : Int),
        splitOn ('.') s = [a, b, c] →
        jsParseInt a = some y → jsParseInt b = some d → jsParseInt c = some m →
        0 ≤ y → y ≤ 99 → 1 ≤ d → d ≤ 31 → 1 ≤ m → m ≤ 12 →
        parseTrendingDate s = some (.valid (daysFromCivil (2000 + y) m d)))
    ∧ (∀ s : Str, (splitOn ('.') s).length ≠ 3 → parseTrendingDate s = none)
    ∧ parseTrendingDate (str ("17.14.11")) = some (.valid (daysFromCivil 2017 11 14))
    ∧ parseTrendingDate (str ("bad")) = none
    ∧ parseTrendingDate (str ("-1950.14.11")) = some (.valid (daysFromCivil 1950 11 14))
    ∧ parseTrendingDate (str ("999999999.1.1")) = some JSDate.invalid := by
  refine ⟨?_, ?_, by decide, by decide, by decide, by decide⟩
  · intro s a b c y d m hsplit ha hb hc hy0 hy99 hd1 hd31 hm1 hm2
    simp only [parseTrendingDate, hsplit, ha, hb, hc]
    rw [jsNewDate_eq (2000 + y) m d (by omega) (by omega) hm1 hm2 hd1 hd31]
  · intro s hs
    unfold parseTrendingDate
    rcases hl : splitOn ('.') s with _ | ⟨a, _ | ⟨b, _ | ⟨c, _ | ⟨e, rest⟩⟩⟩⟩ <;>
      simp_all

/-- Witness for C3: the general part applied to `"17.14.11"`. -/
theorem C3_parseTrendingDate_witness :
    parseTrendingDate (str ("17.14.11")) = some (.valid (daysFromCivil (2000 + 17) 11 14)) :=
  C3_parseTrendingDate.1 (str ("17.14.11")) (str ("17")) (str ("14")) (str ("11"))
    17 14 11 (by decide) (by decide) (by decide) (by decide) (by decide) (by decide)
    (by decide) (by decide) (by decide) (by decide)

/-- Counterexample for C3 as stated: the malformed input `"a.b.c"` does
not return `null`; it returns an Invalid Date object (`new Date(NaN, NaN,
NaN)`), which is non-null and truthy. -/
theorem C3_parseTrendingDate_counterexample :
    parseTrendingDate (str ("a.b.c")) = some JSDate.invalid ∧
    parseTrendingDate (str ("a.b.c")) ≠ none := by
  decide

/-! ### Claim C1 — getViewsByCountry -/

/-- C1: for every loaded country, `getViewsByCountry` returns a record
whose `totalViews` is the exact sum of the country's per-row views, whose
`videoCount` is the number of rows, and whose `avgViews` is
`totalViews / videoCount` (the `NaN` of an empty country's `0 / 0` is
modelled as `none`, a defined value, not a thrown error); in particular
two US rows with views 100 and 300 give `{400, 200, 2}`, and an empty
country gives `avgViews = NaN`. -/
theorem C1_getViewsByCountry :
    (∀ (vd : VideoData) (c : Str) (rows : List Row),
        (vd.map Prod.fst).Nodup → (c, rows) ∈ vd →
        jsLookup c (getViewsByCountry vd) =
          some { totalViews := (rows.map Row.views).sum
                 avgViews :=
                   if rows.length = 0 then none
                   else some (((rows.map Row.views).sum : ℚ) / (rows.length : ℚ))
                 videoCount := rows.length })
    ∧ jsLookup (str ("US")) (getViewsByCountry [(str ("US"), [rowViews100, rowViews300])]) =
        some { totalViews := 400, avgViews := some 200, videoCount := 2 }
    ∧ jsLookup (str ("XX")) (getViewsByCountry [(str ("XX"), [])]) =
        some { totalViews := 0, avgViews := none, videoCount := 0 } := by
  refine ⟨?_, ?exUS, ?exXX⟩
  case exUS =>
    simp only [getViewsByCountry, countryViewsOf, rowViews100, rowViews300, baseRow, str,
      List.map_cons, List.map_nil, jsLookup]
    norm_num
  case exXX =>
    simp only [getViewsByCountry, countryViewsOf, List.map_cons, List.map_nil, jsLookup]
    norm_num
  intro vd c rows hnodup hmem
  rw [getViewsByCountry, jsLookup_map_value countryViewsOf vd c,
    jsLookup_of_mem_nodup hnodup hmem]
  rfl

/-- Witness for C1: the general part applied to a concrete state. -/
theorem C1_getViewsByCountry_witness :
    jsLookup (str ("US")) (getViewsByCountry [(str ("US"), [rowViews100, rowViews300])]) =
      some { totalViews := ([rowViews100, rowViews300].map Row.views).sum
             avgViews :=
               if ([rowViews100, rowViews300] : List Row).length = 0 then none
               else some (((([rowViews100, rowViews300] : List Row).map Row.views).sum : ℚ) /
                 (([rowViews100, rowViews300] : List Row).length : ℚ))
             videoCount := ([rowViews100, rowViews300] : List Row).length } :=
  C1_getViewsByCountry.1 [(str ("US"), [rowViews100, rowViews300])] (str ("US"))
    [rowViews100, rowViews300] (by decide) (by decide)

/-! ### Claim C5 — getViewsVsLikes -/

/-- C5: for every sample size, country selector and filter range (and any
permutation the random shuffle may produce), `getViewsVsLikes` returns at
most `sampleSize` points, and every returned point has positive views and
likes and respects the inclusive min/max bounds on both (absent bounds
being unbounded). -/
theorem C5_getViewsVsLikes (shuffle : List Row → List Row) (vd : VideoData)
    (sampleSize : Nat) (country : Str) (filters : VLFilters)
    (hshuffle : ∀ l : List Row, List.Perm (shuffle l) l) :
    (getViewsVsLikes shuffle vd sampleSize country filters).length ≤ sampleSize ∧
    ∀ p ∈ getViewsVsLikes shuffle vd sampleSize country filters,
      0 < p.views ∧ 0 < p.likes ∧
      (∀ m, filters.minViews = some m → m ≤ p.views) ∧
      (∀ m, filters.maxViews = some m → p.views ≤ m) ∧
      (∀ m, filters.minLikes = some m → m ≤ p.likes) ∧
      (∀ m, filters.maxLikes = some m → p.likes ≤ m) := by
  constructor
  · simp only [getViewsVsLikes, List.length_map, List.length_take]
    exact min_le_left _ _
  · intro p hp
    simp only [getViewsVsLikes, List.mem_map] at hp
    obtain ⟨v, hv, rfl⟩ := hp
    have hv2 := (hshuffle _).mem_iff.mp (List.mem_of_mem_take hv)
    simp only [List.mem_filter, Bool.and_eq_true, decide_eq_true_eq] at hv2
    obtain ⟨⟨⟨hvmem, hpos1, hpos2⟩, hminV, hmaxV⟩, hminL, hmaxL⟩ := hv2
    refine ⟨hpos1, hpos2, ?_, ?_, ?_, ?_⟩
    · intro m hm; rw [hm] at hminV; exact hminV
    · intro m hm; rw [hm] at hmaxV; simpa using hmaxV
    · intro m hm; rw [hm] at hminL; exact hminL
    · intro m hm; rw [hm] at hmaxL; simpa using hmaxL

/-- Witness for C5: a concrete application with the identity permutation,
sample size 1 and all four bounds present. -/
theorem C5_getViewsVsLikes_witness :
    (getViewsVsLikes id [(str ("US"), [rowViews100, rowViews300])] 1 (str ("all"))
        { minViews := some 50, maxViews := some 1000, minLikes := some 1, maxLikes := some 100 }).length ≤ 1 ∧
    ∀ p ∈ getViewsVsLikes id [(str ("US"), [rowViews100, rowViews300])] 1 (str ("all"))
        { minViews := some 50, maxViews := some 1000, minLikes := some 1, maxLikes := some 100 },
      0 < p.views ∧ 0 < p.likes ∧
      (∀ m, ({ minViews := some 50, maxViews := some 1000, minLikes := some 1, maxLikes := some 100 } : VLFilters).minViews = some m → m ≤ p.views) ∧
      (∀ m, ({ minViews := some 50, maxViews := some 1000, minLikes := some 1, maxLikes := some 100 } : VLFilters).maxViews = some m → p.views ≤ m) ∧
      (∀ m, ({ minViews := some 50, maxViews := some 1000, minLikes := some 1, maxLikes := some 100 } : VLFilters).minLikes = some m → m ≤ p.likes) ∧
      (∀ m, ({ minViews := some 50, maxViews := some 1000, minLikes := some 1, maxLikes := some 100 } : VLFilters).maxLikes = some m → p.likes ≤ m) :=
  C5_getViewsVsLikes id [(str ("US"), [rowViews100, rowViews300])] 1 (str ("all"))
    { minViews := some 50, maxViews := some 1000, minLikes := some 1, maxLikes := some 100 }
    (fun l => List.Perm.refl l)

/-! ### Claim C2 — parseCSV numeric fields -/

theorem parseCSVLineAux_chars (s : Str) : ∀ (q : Bool) (cur : Str),
    ∀ cell ∈ parseCSVLineAux q cur s, ∀ ch ∈ cell, ch ∈ cur ∨ ch ∈ s := by
  induction s with
  | nil =>
    intro q cur cell hcell ch hch
    simp only [parseCSVLineAux, List.mem_singleton] at hcell
    subst hcell
    exact Or.inl (List.mem_reverse.mp hch)
  | cons c rest ih =>
    intro q cur cell hcell ch hch
    simp only [parseCSVLineAux] at hcell
    split at hcell
    · rcases ih (!q) cur cell hcell ch hch with h | h
      · exact Or.inl h
      · exact Or.inr (List.mem_cons_of_mem c h)
    · split at hcell
      · rcases List.mem_cons.mp hcell with h | h
        · subst h
          exact Or.inl (List.mem_reverse.mp hch)
        · rcases ih q [] cell h ch hch with h2 | h2
          · cases h2
          · exact Or.inr (List.mem_cons_of_mem c h2)
      · rcases ih q (c :: cur) cell hcell ch hch with h | h
        · rcases List.mem_cons.mp h with h2 | h2
          · rw [h2]
            exact Or.inr (List.mem_cons_self _ _)
          · exact Or.inl h2
        · exact Or.inr (List.mem_cons_of_mem c h)

theorem parseCSVLine_chars (line : Str) :
    ∀ cell ∈ parseCSVLine line, ∀ ch ∈ cell, ch ∈ line := by
  intro cell hcell ch hch
  rcases parseCSVLineAux_chars line false [] cell hcell ch hch with h | h
  · cases h
  · exact h

theorem splitOnAux_chars (sep : Char) (s : Str) : ∀ (cur : Str),
    ∀ piece ∈ splitOnAux sep cur s, ∀ ch ∈ piece, ch ∈ cur ∨ ch ∈ s := by
  induction s with
  | nil =>
    intro cur piece hpiece ch hch
    simp only [splitOnAux, List.mem_singleton] at hpiece
    subst hpiece
    exact Or.inl (List.mem_reverse.mp hch)
  | cons c rest ih =>
    intro cur piece hpiece ch hch
    simp only [splitOnAux] at hpiece
    split at hpiece
    · rcases List.mem_cons.mp hpiece with h | h
      · subst h
        exact Or.inl (List.mem_reverse.mp hch)
      · rcases ih [] piece h ch hch with h2 | h2
        · cases h2
        · exact Or.inr (List.mem_cons_of_mem c h2)
    · rcases ih (c :: cur) piece hpiece ch hch with h | h
      · rcases List.mem_cons.mp h with h2 | h2
        · rw [h2]
          exact Or.inr (List.mem_cons_self _ _)
        · exact Or.inl h2
      · exact Or.inr (List.mem_cons_of_mem c h)

theorem splitOn_chars (sep : Char) (s : Str) :
    ∀ piece ∈ splitOn sep s, ∀ ch ∈ piece, ch ∈ s := by
  intro piece hpiece ch hch
  rcases splitOnAux_chars sep s [] piece hpiece ch hch with h | h
  · cases h
  · exact h

theorem jsTrim_chars (s : Str) : ∀ ch ∈ jsTrim s, ch ∈ s := by
  intro ch hch
  simp only [jsTrim, List.mem_reverse] at hch
  have h1 := (List.dropWhile_sublist (l := (s.dropWhile isJSSpace).reverse) (p := isJSSpace)).mem hch
  rw [List.mem_reverse] at h1
  exact (List.dropWhile_sublist (l := s) (p := isJSSpace)).mem h1

theorem jsParseIntMag_map_nonneg (s : Str) (n : Int)
    (h : (jsParseIntMag s).map (fun v => (v : Int)) = some n) : 0 ≤ n := by
  cases hm : jsParseIntMag s with
  | none => rw [hm] at h; cases h
  | some v =>
    rw [hm] at h
    have h2 : (v : Int) = n := by injection h
    omega

/-- A negative `parseInt` result can only come from a literal minus sign
in the parsed string. -/
theorem jsParseInt_neg (s : Str) (n : Int) (h : jsParseInt s = some n) (hn : n < 0) :
    '-' ∈ s := by
  unfold jsParseInt at h
  split at h
  · next r heq =>
    have : '-' ∈ s.dropWhile isJSSpace := by rw [heq]; exact List.mem_cons_self _ _
    exact (List.dropWhile_sublist (l := s) (p := isJSSpace)).mem this
  all_goals exact absurd (jsParseIntMag_map_nonneg _ n h) (by omega)

/-- `parseInt(fs) || 0` is non-negative when `fs` has no minus sign. -/
theorem getD_parseInt_nonneg (fs : Str) (h : '-' ∉ fs) : 0 ≤ (jsParseInt fs).getD 0 := by
  cases hj : jsParseInt fs with
  | none => simp
  | some n =>
    simp only [Option.getD_some]
    by_contra hlt
    push_neg at hlt
    exact h (jsParseInt_neg fs n hj hlt)

/-- Every character of every (trimmed) cell of every processed data line
of `parseCSV` occurs in the raw text. -/
theorem parseCSV_cell_chars (text line v : Str)
    (hline : line ∈ ((splitOn ('\n') (jsTrim text)).drop 1).take 1000)
    (hv : v ∈ (parseCSVLine line).map jsTrim) : ∀ ch ∈ v, ch ∈ text := by
  intro ch hch
  obtain ⟨v0, hv0, rfl⟩ := List.mem_map.mp hv
  have h1 : ch ∈ v0 := jsTrim_chars v0 ch hch
  have h2 : ch ∈ line := parseCSVLine_chars line v0 hv0 ch h1
  have h3 : line ∈ splitOn ('\n') (jsTrim text) :=
    List.mem_of_mem_drop (List.mem_of_mem_take hline)
  have h4 : ch ∈ jsTrim text := splitOn_chars ('\n') (jsTrim text) line h3 ch h2
  exact jsTrim_chars text ch h4

/-- The value a `mkRow` field read returns has all its characters in the
raw text. -/
theorem lastAssoc_chars (text : Str) (assoc : List (Str × Str)) (k : Str)
    (h : ∀ p ∈ assoc, ∀ ch ∈ p.2, ch ∈ text) :
    ∀ ch ∈ (lastAssoc assoc k).getD [], ch ∈ text := by
  intro ch hch
  cases hl : lastAssoc assoc k with
  | none => rw [hl] at hch; cases hch
  | some v =>
    rw [hl] at hch
    simp only [Option.getD_some] at hch
    unfold lastAssoc at hl
    cases hf : assoc.reverse.find? (fun p => decide (p.1 = k)) with
    | none => rw [hf] at hl; cases hl
    | some p =>
      rw [hf] at hl
      injection hl with hl2
      subst hl2
      have hp : p ∈ assoc := List.mem_reverse.mp (List.mem_of_find?_eq_some hf)
      exact h p hp ch hch

/-- C2 (amended): `parseCSV` coerces every unparseable numeric field to 0
and keeps the row, and `views`, `likes`, `dislikes`, `comment_count` are
all ≥ 0 for any raw text containing no `-` character; a text whose
numeric cell is a negative numeral, however, produces a negative field
(see the counterexample). -/
theorem C2_parseCSV_fields :
    (∀ (cats : Categories) (text country : Str), '-' ∉ text →
      ∀ row ∈ parseCSV cats text country,
        0 ≤ row.views ∧ 0 ≤ row.likes ∧ 0 ≤ row.dislikes ∧ 0 ≤ row.comment_count) ∧
    (parseCSV [] (str ("views\nabc")) (str ("US"))).map Row.views = [0] := by
  constructor
  · intro cats text country hminus row hrow
    obtain ⟨line, hline, hmk⟩ := List.mem_filterMap.mp hrow
    simp only [mkRow] at hmk
    split at hmk
    · rw [Option.some.injEq] at hmk
      have hcell : ∀ k : Str,
          '-' ∉ (lastAssoc ((splitOn (',') ((splitOn ('\n') (jsTrim text)).headD [])).map jsTrim
            |>.zip ((parseCSVLine line).map jsTrim)) k).getD [] := by
        intro k hmem
        refine hminus ?_
        refine lastAssoc_chars text _ k ?_ '-' hmem
        intro p hp ch hch
        have := (List.of_mem_zip hp).2
        exact parseCSV_cell_chars text line p.2 hline this ch hch
      refine ⟨?_, ?_, ?_, ?_⟩ <;>
        (rw [← hmk]; exact getD_parseInt_nonneg _ (hcell _))
    · cases hmk
  · decide

/-- Witness for C2 (amended part): a concrete minus-free text. -/
theorem C2_parseCSV_fields_witness :
    ('-' ∉ str ("views,likes\n100,7\n300,9")) ∧
    ∀ row ∈ parseCSV [] (str ("views,likes\n100,7\n300,9")) (str ("US")),
      0 ≤ row.views ∧ 0 ≤ row.likes ∧ 0 ≤ row.dislikes ∧ 0 ≤ row.comment_count :=
  ⟨by decide,
   C2_parseCSV_fields.1 [] (str ("views,likes\n100,7\n300,9")) (str ("US")) (by decide)⟩

/-- Counterexample for C2 as stated: a raw text with the views cell
`"-5"` yields a row whose `views` field is −5, which is negative — JS
`parseInt("-5") || 0` is −5, so nonnegativity does not hold for every raw
input text. -/
theorem C2_parseCSV_fields_counterexample :
    ∃ row ∈ parseCSV [] (str ("views\n-5")) (str ("US")), row.views < 0 := by
  decide

/-! ### Claim C6 — getHeatmapData -/

theorem mem_addSet {α : Type} [DecidableEq α] {x y : α} {l : List α} :
    x ∈ addSet y l ↔ x ∈ l ∨ x = y := by
  unfold addSet
  split
  · next h => exact ⟨Or.inl, fun hor => hor.elim id (fun hx => hx ▸ h)⟩
  · simp [List.mem_append]

theorem mem_foldl_addSet {α : Type} [DecidableEq α] (l : List α) :
    ∀ (acc : List α) (x : α), x ∈ l.foldl (fun a b => addSet b a) acc ↔ x ∈ acc ∨ x ∈ l := by
  induction l with
  | nil => simp
  | cons c rest ih =>
    intro acc x
    simp only [List.foldl_cons, ih, mem_addSet, List.mem_cons]
    tauto

theorem mem_listToSet {α : Type} [DecidableEq α] {x : α} {l : List α} :
    x ∈ listToSet l ↔ x ∈ l := by
  unfold listToSet
  rw [mem_foldl_addSet]
  simp

theorem nodup_addSet {α : Type} [DecidableEq α] {y : α} {l : List α} (h : l.Nodup) :
    (addSet y l).Nodup := by
  unfold addSet
  split
  · exact h
  · next hy =>
    rw [List.nodup_append]
    exact ⟨h, List.nodup_singleton y, fun a ha hb => hy ((List.mem_singleton.mp hb) ▸ ha)⟩

theorem nodup_listToSet {α : Type} [DecidableEq α] (l : List α) : (listToSet l).Nodup := by
  unfold listToSet
  suffices h : ∀ acc : List α, acc.Nodup → (l.foldl (fun a b => addSet b a) acc).Nodup from
    h [] (List.nodup_nil)
  induction l with
  | nil => intro acc hacc; exact hacc
  | cons c rest ih => intro acc hacc; exact ih _ (nodup_addSet hacc)

theorem heatmapCategories_nodup (vd : VideoData) : (heatmapCategories vd).Nodup := by
  unfold heatmapCategories
  exact ((List.perm_insertionSort strLE _).nodup_iff).mpr (nodup_listToSet _)

theorem mem_allRows {vd : VideoData} {p : Str × List Row} {v : Row}
    (hp : p ∈ vd) (hv : v ∈ p.2) : v ∈ allRows vd :=
  List.mem_flatten.mpr ⟨p.2, List.mem_map.mpr ⟨p, hp, rfl⟩, hv⟩

theorem mem_heatmapCategories {vd : VideoData} {v : Row}
    (hv : v ∈ allRows vd) (hne : v.category_name ≠ []) :
    v.category_name ∈ heatmapCategories vd := by
  unfold heatmapCategories
  rw [(List.perm_insertionSort strLE _).mem_iff, mem_listToSet]
  exact List.mem_filterMap.mpr ⟨v, hv, by simp [hne]⟩

theorem sum_map_add_nat {α : Type} (l : List α) (f g : α → ℕ) :
    (l.map (fun x => f x + g x)).sum = (l.map f).sum + (l.map g).sum := by
  induction l with
  | nil => simp
  | cons a l ih => simp only [List.map_cons, List.sum_cons, ih]; omega

theorem sum_ite_eq_one {cats : List Str} {x : Str} (hnd : cats.Nodup) (hx : x ∈ cats) :
    (cats.map (fun c => if x = c then 1 else 0)).sum = 1 := by
  induction cats with
  | nil => cases hx
  | cons c cs ih =>
    simp only [List.map_cons, List.sum_cons]
    simp only [List.nodup_cons] at hnd
    rcases List.mem_cons.mp hx with h | h
    · rw [if_pos h]
      have hz : (cs.map (fun c2 => if x = c2 then 1 else 0)).sum = 0 := by
        apply List.sum_eq_zero
        intro y hy
        obtain ⟨c2, hc2, rfl⟩ := List.mem_map.mp hy
        rw [if_neg]
        rintro rfl
        exact hnd.1 (h ▸ hc2)
      omega
    · have hne : x ≠ c := by
        rintro rfl
        exact hnd.1 h
      rw [if_neg hne, ih hnd.2 h]

/-- Summed over a duplicate-free list of categories covering every row's
(non-empty) category name, the per-category counts partition the rows. -/
theorem sum_heatCount (rows : List Row) (cats : List Str) (hnd : cats.Nodup)
    (hall : ∀ v ∈ rows, v.category_name ≠ [] ∧ v.category_name ∈ cats) :
    (cats.map (fun cat => heatCount rows cat)).sum = rows.length := by
  induction rows with
  | nil =>
    have : ∀ cat : Str, heatCount [] cat = 0 := fun _ => rfl
    simp [heatCount]
  | cons v rows ih =>
    have hv := hall v (List.mem_cons_self _ _)
    have hstep : ∀ cat, heatCount (v :: rows) cat =
        (if v.category_name = cat then 1 else 0) + heatCount rows cat := by
      intro cat
      simp only [heatCount, List.filter_cons]
      by_cases hc : v.category_name = cat
      · have hcat : cat ≠ [] := hc ▸ hv.1
        rw [hc]
        simp [hcat, List.length_cons, Nat.add_comm]
      · simp [hc]
    calc (cats.map (fun cat => heatCount (v :: rows) cat)).sum
        = (cats.map (fun cat => (if v.category_name = cat then 1 else 0) + heatCount rows cat)).sum := by
          simp only [hstep]
      _ = (cats.map (fun cat => if v.category_name = cat then 1 else 0)).sum +
          (cats.map (fun cat => heatCount rows cat)).sum := sum_map_add_nat ..
      _ = 1 + rows.length := by
          rw [sum_ite_eq_one hnd hv.2, ih (fun w hw => hall w (List.mem_cons_of_mem v hw))]
      _ = (v :: rows).length := by simp [List.length_cons]; omega

theorem sum_div_mul (cats : List Str) (f : Str → ℕ) (T : ℚ) :
    (cats.map (fun c => ((f c : ℚ) / T) * 100)).sum = ((cats.map f).sum : ℚ) / T * 100 := by
  induction cats with
  | nil => simp
  | cons c cs ih =>
    simp only [List.map_cons, List.sum_cons, ih, Nat.cast_add]
    ring

/-- Within the flattened heatmap data, the cells of the country `p` are
exactly its own block (given unique country keys). -/
theorem filter_country_flatMap (cats : List Str) (vd : VideoData) (p : Str × List Row)
    (hnd : (vd.map Prod.fst).Nodup) (hp : p ∈ vd) :
    (vd.flatMap (heatCellsFor cats)).filter (fun cell => decide (cell.country = p.1)) =
      heatCellsFor cats p := by
  induction vd with
  | nil => cases hp
  | cons q rest ih =>
    simp only [List.flatMap_cons, List.filter_append]
    simp only [List.map_cons, List.nodup_cons] at hnd
    rcases List.mem_cons.mp hp with h | h
    · subst h
      have h1 : (heatCellsFor cats p).filter (fun cell => decide (cell.country = p.1)) =
          heatCellsFor cats p := by
        apply List.filter_eq_self.mpr
        intro cell hcell
        obtain ⟨cat, _, rfl⟩ := List.mem_map.mp hcell
        simp
      have h2 : (rest.flatMap (heatCellsFor cats)).filter
          (fun cell => decide (cell.country = p.1)) = [] := by
        rw [List.filter_flatMap]
        apply List.flatMap_eq_nil_iff.mpr
        intro q2 hq2
        apply List.filter_eq_nil_iff.mpr
        intro cell hcell
        obtain ⟨cat, _, rfl⟩ := List.mem_map.mp hcell
        simp only [decide_eq_true_eq]
        intro hc
        exact hnd.1 (List.mem_map.mpr ⟨q2, hq2, hc⟩)
      rw [h1, h2, List.append_nil]
    · have hq : (heatCellsFor cats q).filter (fun cell => decide (cell.country = p.1)) = [] := by
        apply List.filter_eq_nil_iff.mpr
        intro cell hcell
        obtain ⟨cat, _, rfl⟩ := List.mem_map.mp hcell
        simp only [decide_eq_true_eq]
        intro hc
        exact hnd.1 (List.mem_map.mpr ⟨p, h, hc.symm⟩)
      rw [hq, List.nil_append, ih hnd.2 h]

/-- C6: `getHeatmapData` emits, for every loaded country and every
category, a cell whose percentage is `100 × count / totalVideosInCountry`
(0 when the country has no videos); and when every row carries a
(non-empty) category name, the percentage values of a non-empty country's
cells sum to exactly 100. -/
theorem C6_getHeatmapData (vd : VideoData) :
    (∀ p ∈ vd, ∀ cat ∈ (getHeatmapData vd).categories,
      ({ country := p.1
         category := cat
         value :=
           if 0 < p.2.length then ((heatCount p.2 cat : ℚ) / (p.2.length : ℚ)) * 100 else 0
         count := heatCount p.2 cat
         totalVideos := p.2.length } : HeatCell) ∈ (getHeatmapData vd).data) ∧
    ((vd.map Prod.fst).Nodup →
      (∀ q ∈ vd, ∀ v ∈ q.2, v.category_name ≠ []) →
      ∀ p ∈ vd, p.2 ≠ [] →
        (((getHeatmapData vd).data.filter (fun cell => decide (cell.country = p.1))).map
          HeatCell.value).sum = 100) := by
  constructor
  · intro p hp cat hcat
    simp only [getHeatmapData] at hcat ⊢
    exact List.mem_flatMap.mpr ⟨p, hp, List.mem_map.mpr ⟨cat, hcat, rfl⟩⟩
  · intro hnd hnames p hp hne
    simp only [getHeatmapData]
    rw [filter_country_flatMap (heatmapCategories vd) vd p hnd hp]
    have hpos : 0 < p.2.length := List.length_pos.mpr hne
    have hTne : ((p.2.length : ℚ)) ≠ 0 := by
      exact_mod_cast Nat.pos_iff_ne_zero.mp hpos
    have hcells : (heatCellsFor (heatmapCategories vd) p).map HeatCell.value =
        (heatmapCategories vd).map
          (fun cat => ((heatCount p.2 cat : ℚ) / (p.2.length : ℚ)) * 100) := by
      unfold heatCellsFor
      rw [List.map_map]
      apply List.map_congr_left
      intro cat _
      simp [hpos]
    rw [hcells, sum_div_mul,
      sum_heatCount p.2 (heatmapCategories vd) (heatmapCategories_nodup vd)
        (fun v hv => ⟨hnames p hp v hv,
          mem_heatmapCategories (mem_allRows hp hv) (hnames p hp v hv)⟩)]
    field_simp

/-- Witness for C6: a one-country, two-category state; the country's
percentage values sum to 100. -/
theorem C6_getHeatmapData_witness :
    (((getHeatmapData demoHeatVD).data.filter
        (fun cell => decide (cell.country = str ("US")))).map HeatCell.value).sum = 100 :=
  (C6_getHeatmapData demoHeatVD).2 (by decide) (by decide)
    (str ("US"), [rowCatB1, rowCatB2, rowCatA1]) (by decide) (by decide)

/-! ### Claim C7 — getPublishingTimingData -/

theorem mem_of_jsLookup {α β : Type} [DecidableEq α] {l : List (α × β)} {k : α} {v : β}
    (h : jsLookup k l = some v) : (k, v) ∈ l := by
  induction l with
  | nil => cases h
  | cons p rest ih =>
    obtain ⟨k2, v2⟩ := p
    simp only [jsLookup] at h
    split at h
    · next heq =>
      rw [Option.some.injEq] at h
      subst heq
      subst h
      exact List.mem_cons_self _ _
    · exact List.mem_cons_of_mem _ (ih h)

theorem timingRows_views_nonneg (vd : VideoData) (sc : Str)
    (hviews : ∀ q ∈ vd, ∀ v ∈ q.2, 0 ≤ v.views) :
    ∀ v ∈ timingRows vd sc, 0 ≤ v.views := by
  intro v hv
  unfold timingRows at hv
  split at hv
  · obtain ⟨rows, hrows, hv2⟩ := List.mem_flatten.mp hv
    obtain ⟨q, hq, rfl⟩ := List.mem_map.mp hrows
    exact hviews q hq v hv2
  · cases hl : jsLookup sc vd with
    | none => rw [hl] at hv; cases hv
    | some rows =>
      rw [hl] at hv
      exact hviews (sc, rows) (mem_of_jsLookup hl) v hv

theorem timingCellRows_views_nonneg (pp : PublishParse) (vd : VideoData) (sc : Str)
    (hviews : ∀ q ∈ vd, ∀ v ∈ q.2, 0 ≤ v.views) (day hour : Int) :
    0 ≤ (((timingCellRows pp (timingRows vd sc) day hour).map Row.views).sum : ℚ) := by
  have h : 0 ≤ ((timingCellRows pp (timingRows vd sc) day hour).map Row.views).sum := by
    apply List.sum_nonneg
    intro x hx
    obtain ⟨v, hv, rfl⟩ := List.mem_map.mp hx
    exact timingRows_views_nonneg vd sc hviews v (List.mem_filter.mp hv).1
  exact_mod_cast h

theorem overallAvgViews_nonneg (pp : PublishParse) (vd : VideoData) (sc : Str)
    (hviews : ∀ q ∈ vd, ∀ v ∈ q.2, 0 ≤ v.views) : 0 ≤ overallAvgViews pp vd sc := by
  unfold overallAvgViews
  dsimp only
  split
  · apply div_nonneg
    · have h : (0 : Int) ≤ ((timingGrid pp (timingRows vd sc)).map fun slot =>
          if 0 < slot.length then (slot.map Row.views).sum else 0).sum := by
        apply List.sum_nonneg
        intro x hx
        obtain ⟨slot, hslot, rfl⟩ := List.mem_map.mp hx
        obtain ⟨day, hday, hcell⟩ := List.mem_flatMap.mp hslot
        obtain ⟨hour, hhour, rfl⟩ := List.mem_map.mp hcell
        split
        · have h4 := timingCellRows_views_nonneg pp vd sc hviews (Int.ofNat day) (Int.ofNat hour)
          exact_mod_cast h4
        · exact le_refl 0
      have h3 := (Int.cast_le (R := ℚ)).mpr h
      rw [Int.cast_zero] at h3
      exact h3
    · positivity
  · exact le_refl 0

/-- C7: every cell of the 7×24 grid has a success rate in `[0, 100]`;
empty cells get 0; a non-empty cell (when the overall average is
positive) gets `min(100, 100 × cellAvgViews / overallAvgViews)`; and a
cell's count is exactly the number of selected rows whose publish
timestamp is present, parses to a valid date, and lands in that cell —
rows with missing or unparseable timestamps are skipped, never
zero-filled. -/
theorem C7_getPublishingTimingData (pp : PublishParse) (vd : VideoData) (selectedCountry : Str)
    (hviews : ∀ q ∈ vd, ∀ v ∈ q.2, 0 ≤ v.views) :
    ∀ cell ∈ getPublishingTimingData pp vd selectedCountry,
      0 ≤ cell.successRate ∧ cell.successRate ≤ 100 ∧
      (cell.count = 0 → cell.successRate = 0) ∧
      (0 < cell.count → 0 < overallAvgViews pp vd selectedCountry →
        cell.successRate =
          min 100 (100 * cell.avgViews / overallAvgViews pp vd selectedCountry)) ∧
      cell.count =
        (timingCellRows pp (timingRows vd selectedCountry) cell.day cell.hour).length := by
  intro cell hcell
  simp only [getPublishingTimingData, List.mem_flatMap, List.mem_map, List.mem_range] at hcell
  obtain ⟨day, hday, hour, hhour, rfl⟩ := hcell
  have hov : 0 ≤ overallAvgViews pp vd selectedCountry :=
    overallAvgViews_nonneg pp vd selectedCountry hviews
  have hsum := timingCellRows_views_nonneg pp vd selectedCountry hviews (Int.ofNat day) (Int.ofNat hour)
  have havg : 0 ≤ (if 0 < (timingCellRows pp (timingRows vd selectedCountry)
      (day : Int) (hour : Int)).length then
        (((timingCellRows pp (timingRows vd selectedCountry) (day : Int) (hour : Int)).map
          Row.views).sum : ℚ) /
          ((timingCellRows pp (timingRows vd selectedCountry) (day : Int) (hour : Int)).length : ℚ)
      else 0) := by
    split
    · exact div_nonneg hsum (by positivity)
    · exact le_refl 0
  dsimp only
  refine ⟨?_, ?_, ?_, ?_, rfl⟩
  · split
    · next h =>
      refine le_min (by norm_num) ?_
      exact mul_nonneg (div_nonneg havg hov) (by norm_num)
    · exact le_refl 0
  · split
    · exact min_le_left _ _
    · norm_num
  · intro hc
    rw [if_neg]
    rintro ⟨h1, h2⟩
    omega
  · intro hc hov2
    rw [if_pos ⟨hc, hov2⟩]
    have harr : ∀ a b : ℚ, min 100 ((a / b) * 100) = min 100 (100 * a / b) := by
      intro a b
      rw [div_mul_eq_mul_div, mul_comm]
    exact harr _ _

/-- Witness for C7: a concrete state with one valid-timestamp row, its
nonnegative-views hypothesis discharged by evaluation. -/
theorem C7_getPublishingTimingData_witness :
    (∀ q ∈ [(str ("US"), [rowTiming, baseRow])], ∀ v ∈ q.2, 0 ≤ v.views) ∧
    ∀ cell ∈ getPublishingTimingData ppDemo [(str ("US"), [rowTiming, baseRow])] (str ("global")),
      0 ≤ cell.successRate ∧ cell.successRate ≤ 100 ∧
      (cell.count = 0 → cell.successRate = 0) ∧
      (0 < cell.count → 0 < overallAvgViews ppDemo [(str ("US"), [rowTiming, baseRow])] (str ("global")) →
        cell.successRate =
          min 100 (100 * cell.avgViews /
            overallAvgViews ppDemo [(str ("US"), [rowTiming, baseRow])] (str ("global")))) ∧
      cell.count =
        (timingCellRows ppDemo
          (timingRows [(str ("US"), [rowTiming, baseRow])] (str ("global")))
          cell.day cell.hour).length :=
  ⟨by decide,
   C7_getPublishingTimingData ppDemo [(str ("US"), [rowTiming, baseRow])] (str ("global"))
     (by decide)⟩

/-! ### Claim C10 — getTagRacingData -/

theorem strLEb_total : ∀ a b : Str, (strLEb a b || strLEb b a) = true := by
  intro a
  induction a with
  | nil => intro b; simp [strLEb]
  | cons x xs ih =>
    intro b
    cases b with
    | nil => simp [strLEb]
    | cons y ys =>
      simp only [strLEb]
      by_cases h : x.toNat = y.toNat
      · rw [if_pos h, if_pos h.symm]
        exact ih ys
      · rw [if_neg h, if_neg (fun h2 => h h2.symm)]
        simp only [Bool.or_eq_true, decide_eq_true_eq]
        omega

theorem strLEb_trans : ∀ a b c : Str, strLEb a b = true → strLEb b c = true →
    strLEb a c = true := by
  intro a
  induction a with
  | nil => intro b c h1 h2; simp [strLEb]
  | cons x xs ih =>
    intro b c h1 h2
    cases b with
    | nil => simp [strLEb] at h1
    | cons y ys =>
      cases c with
      | nil => simp [strLEb] at h2
      | cons z zs =>
        simp only [strLEb] at h1 h2 ⊢
        by_cases hxy : x.toNat = y.toNat
        · rw [if_pos hxy] at h1
          by_cases hyz : y.toNat = z.toNat
          · rw [if_pos hyz] at h2
            rw [if_pos (hxy.trans hyz)]
            exact ih ys zs h1 h2
          · rw [if_neg hyz, decide_eq_true_eq] at h2
            have hxz : ¬ x.toNat = z.toNat := by omega
            rw [if_neg hxz, decide_eq_true_eq]
            omega
        · rw [if_neg hxy, decide_eq_true_eq] at h1
          by_cases hyz : y.toNat = z.toNat
          · rw [if_pos hyz] at h2
            have hxz : ¬ x.toNat = z.toNat := by omega
            rw [if_neg hxz, decide_eq_true_eq]
            omega
          · rw [if_neg hyz, decide_eq_true_eq] at h2
            have hxz : ¬ x.toNat = z.toNat := by omega
            rw [if_neg hxz, decide_eq_true_eq]
            omega

/-- C10 (amended): under every runtime clock, `getTagRacingData` sorts its
period labels (and the per-period `racingData` entries, which follow the
same order) in lexicographic string order; under a fixed-UTC-offset
runtime clock (no DST transition), for a trending date whose year needs
no `MakeFullYear` adjustment and passes `TimeClip` (year in
`[100, 275000]`), the week label is `Week (floor(days since Jan 1 of the
trending year / 7) + 1)`, not a calendar-standard week number (January 1
is always "Week 1", though ISO 8601 can place it in week 52 of the prior
year, as for 2017-01-01); and on data spanning weeks 2 and 10 the
returned period order is ["Week 10", "Week 2"], the reverse of
chronological order, because "Week 10" precedes "Week 2" as a string
while week 2's dates precede week 10's.  (Under a clock with a DST
transition between Jan 1 and the trending date the program's millisecond
quotient falls below that formula — see the counterexample.) -/
theorem C10_getTagRacingData :
    (∀ (lm : LocalClock) (vd : VideoData) (filterType selectedCountry : Str),
        (getTagRacingData lm vd filterType selectedCountry).periods.Pairwise strLE ∧
        (getTagRacingData lm vd filterType selectedCountry).racingData.map RacingPeriod.period =
          (getTagRacingData lm vd filterType selectedCountry).periods) ∧
    (∀ (lm : LocalClock) (c d : Int),
        (∀ x : Int, lm x = x * 86400000 + c) →
        100 ≤ civilYear d → civilYear d ≤ 275000 →
        periodKeyOf lm (.valid d) =
          str ("Week ") ++ intToStr ((d - daysFromCivil (civilYear d) 1 1).fdiv 7 + 1)) ∧
    (getTagRacingData lmUTC demoRacingVD (str ("overview")) (str ("global"))).periods =
      [str ("Week 10"), str ("Week 2")] ∧
    daysFromCivil 2018 1 10 < daysFromCivil 2018 3 7 ∧
    periodKeyOf lmUTC (.valid (daysFromCivil 2018 1 10)) = str ("Week 2") ∧
    periodKeyOf lmUTC (.valid (daysFromCivil 2018 3 7)) = str ("Week 10") ∧
    strLEb (str ("Week 10")) (str ("Week 2")) = true ∧
    strLEb (str ("Week 2")) (str ("Week 10")) = false ∧
    periodKeyOf lmUTC (.valid (daysFromCivil 2017 1 1)) = str ("Week 1") := by
  refine ⟨?_, ?_, by decide, by decide, by decide, by decide, by decide, by decide,
    by decide⟩
  · intro lm vd filterType selectedCountry
    haveI : IsTotal Str strLE :=
      ⟨fun a b => by
        have h := strLEb_total a b
        simp only [Bool.or_eq_true] at h
        exact h⟩
    haveI : IsTrans Str strLE := ⟨fun a b c h1 h2 => strLEb_trans a b c h1 h2⟩
    constructor
    · simp only [getTagRacingData]
      exact List.sorted_insertionSort strLE _
    · simp only [getTagRacingData, List.map_map]
      exact (List.map_congr_left (fun x _ => rfl)).trans (List.map_id _)
  · intro lm c d hlm hy1 hy2
    have hjan : jsNewDate (civilYear d) 0 1 = .valid (daysFromCivil (civilYear d) 1 1) := by
      have h := jsNewDate_eq (civilYear d) 1 1 hy1 hy2 (by norm_num) (by norm_num)
        (by norm_num) (by norm_num)
      simpa using h
    have hkey : periodKeyOf lm (.valid d) =
        str ("Week ") ++
          intToStr ((lm d - lm (daysFromCivil (civilYear d) 1 1)).fdiv 604800000 + 1) := by
      show (match jsNewDate (civilYear d) 0 1 with
        | JSDate.invalid => str ("Week NaN")
        | JSDate.valid j => str ("Week ") ++ intToStr ((lm d - lm j).fdiv 604800000 + 1)) = _
      rw [hjan]
    rw [hkey, hlm d, hlm (daysFromCivil (civilYear d) 1 1)]
    have harith : d * 86400000 + c - (daysFromCivil (civilYear d) 1 1 * 86400000 + c)
        = 86400000 * (d - daysFromCivil (civilYear d) 1 1) := by ring
    rw [harith]
    have hfd : (86400000 * (d - daysFromCivil (civilYear d) 1 1)).fdiv 604800000
        = (d - daysFromCivil (civilYear d) 1 1).fdiv 7 := by
      rw [Int.fdiv_eq_ediv _ (by norm_num), Int.fdiv_eq_ediv _ (by norm_num),
        show (604800000 : Int) = 86400000 * 7 from by norm_num,
        Int.mul_ediv_mul_of_pos _ _ (by norm_num)]
    rw [hfd]

/-- Witness for C10: the sortedness part at a concrete call, and the week
formula at 2017-11-14 under the UTC clock (a fixed offset of 0 ms). -/
theorem C10_getTagRacingData_witness :
    ((getTagRacingData lmUTC demoRacingVD (str ("overview")) (str ("global"))).periods.Pairwise
        strLE ∧
      (getTagRacingData lmUTC demoRacingVD (str ("overview")) (str ("global"))).racingData.map
          RacingPeriod.period =
        (getTagRacingData lmUTC demoRacingVD (str ("overview")) (str ("global"))).periods) ∧
    periodKeyOf lmUTC (.valid (daysFromCivil 2017 11 14)) =
      str ("Week ") ++
        intToStr
          ((daysFromCivil 2017 11 14 -
              daysFromCivil (civilYear (daysFromCivil 2017 11 14)) 1 1).fdiv 7 + 1) :=
  ⟨C10_getTagRacingData.1 lmUTC demoRacingVD (str ("overview")) (str ("global")),
   C10_getTagRacingData.2.1 lmUTC 0 (daysFromCivil 2017 11 14)
     (fun x => by simp [lmUTC]) (by decide) (by decide)⟩

/-- Counterexample for C10 as stated: under the explicit New-York-like
runtime clock `lmNY`, the trending date 2018-04-09 — 98 days after its
January 1, with the 2018-03-11 DST transition in between — is labelled
"Week 14" by the program, because the millisecond difference of the two
local midnights is `98·86400000 − 3600000`, one hour short of 98 whole
days, while the claim's formula `floor(98 / 7) + 1` gives 15. -/
theorem C10_getTagRacingData_counterexample :
    (getTagRacingData lmNY demoDSTVD (str ("overview")) (str ("global"))).periods =
      [str ("Week 14")] ∧
    (daysFromCivil 2018 4 9 -
        daysFromCivil (civilYear (daysFromCivil 2018 4 9)) 1 1).fdiv 7 + 1 = 15 := by
  decide

/-! ### Claim C9 — getTagFlowData -/

theorem updAssoc_keys {α β : Type} [DecidableEq α] (k : α) (d : β) (f : β → β)
    (l : List (α × β)) :
    (updAssoc k d f l).map Prod.fst =
      if k ∈ l.map Prod.fst then l.map Prod.fst else l.map Prod.fst ++ [k] := by
  induction l with
  | nil => simp [updAssoc]
  | cons p rest ih =>
    obtain ⟨k2, v⟩ := p
    simp only [updAssoc, List.map_cons]
    by_cases h : k2 = k
    · subst h
      simp [List.mem_cons]
    · rw [if_neg h, List.map_cons, ih]
      by_cases hm : k ∈ rest.map Prod.fst
      · simp [hm, List.mem_cons]
      · have hne : ¬ k = k2 := fun h2 => h h2.symm
        simp [hm, hne, List.mem_cons]

theorem updAssoc_keys_nodup {α β : Type} [DecidableEq α] {k : α} {d : β} {f : β → β}
    {l : List (α × β)} (h : (l.map Prod.fst).Nodup) :
    ((updAssoc k d f l).map Prod.fst).Nodup := by
  rw [updAssoc_keys]
  split
  · exact h
  · next hm =>
    rw [List.nodup_append]
    exact ⟨h, List.nodup_singleton _, fun a ha hb => hm ((List.mem_singleton.mp hb) ▸ ha)⟩

theorem flowTagStep_foldl_nodup (cat : Str) (views likes : Int) (tags : List Str) :
    ∀ st : FlowState, (st.tagStats.map Prod.fst).Nodup → (st.catStats.map Prod.fst).Nodup →
    (((tags.foldl (flowTagStep cat views likes) st).tagStats.map Prod.fst).Nodup ∧
     ((tags.foldl (flowTagStep cat views likes) st).catStats.map Prod.fst).Nodup) := by
  induction tags with
  | nil => intro st h1 h2; exact ⟨h1, h2⟩
  | cons t ts ih =>
    intro st h1 h2
    simp only [List.foldl_cons]
    exact ih _ (updAssoc_keys_nodup h1) (updAssoc_keys_nodup h2)

theorem flowStats_nodup (vd : VideoData) (sc : Str) :
    (((flowStats vd sc).tagStats.map Prod.fst).Nodup ∧
     ((flowStats vd sc).catStats.map Prod.fst).Nodup) := by
  unfold flowStats
  generalize (if sc = str ("global") then allRows vd else (jsLookup sc vd).getD []) = videos
  suffices h : ∀ (videos : List Row) (st : FlowState),
      (st.tagStats.map Prod.fst).Nodup → (st.catStats.map Prod.fst).Nodup →
      (((videos.foldl flowVideoStep st).tagStats.map Prod.fst).Nodup ∧
       ((videos.foldl flowVideoStep st).catStats.map Prod.fst).Nodup) from
    h videos { pairs := [], tagStats := [], catStats := [] } (by simp) (by simp)
  intro videos
  induction videos with
  | nil => intro st h1 h2; exact ⟨h1, h2⟩
  | cons v rest ih =>
    intro st h1 h2
    simp only [List.foldl_cons]
    have hstep : (((flowVideoStep st v).tagStats.map Prod.fst).Nodup ∧
        ((flowVideoStep st v).catStats.map Prod.fst).Nodup) := by
      unfold flowVideoStep
      split
      · exact flowTagStep_foldl_nodup _ _ _ _ st h1 h2
      · exact ⟨h1, h2⟩
    exact ih _ hstep.1 hstep.2

theorem enum_map_snd {α : Type} (l : List α) : l.enum.map Prod.snd = l :=
  List.enumFrom_map_snd 0 l

theorem enum_len {α : Type} (l : List α) : l.enum.length = l.length :=
  List.enumFrom_length

/-- Reading back the statistics of the sorted-and-truncated entries
through a JS property lookup returns exactly the stored records. -/
theorem jsLookup_sorted_take {β : Type} (r : (Str × β) → (Str × β) → Prop) [DecidableRel r]
    (m : List (Str × β)) (n : Nat) (hnd : (m.map Prod.fst).Nodup) :
    ∀ e ∈ (List.insertionSort r m).take n, jsLookup e.1 m = some e.2 := by
  intro e he
  have h1 : e ∈ m := (List.perm_insertionSort r m).mem_iff.mp (List.mem_of_mem_take he)
  obtain ⟨k, v⟩ := e
  exact jsLookup_of_mem_nodup hnd h1

theorem map_lookup_getD_from {β γ : Type} (m : List (Str × β)) (d : β) (g : β → γ) :
    ∀ (n : Nat) (l : List (Str × β)), (∀ e ∈ l, jsLookup e.1 m = some e.2) →
    ((l.map Prod.fst).enumFrom n).map (fun q => g ((jsLookup q.2 m).getD d)) =
      l.map (fun e => g e.2) := by
  intro n l
  induction l generalizing n with
  | nil => intro h; rfl
  | cons e rest ih =>
    intro h
    simp only [List.map_cons, List.enumFrom]
    rw [ih (n + 1) (fun x hx => h x (List.mem_cons_of_mem e hx))]
    have he := h e (List.mem_cons_self _ _)
    simp [he]

theorem map_lookup_getD {β γ : Type} (m : List (Str × β)) (l : List (Str × β)) (d : β)
    (g : β → γ) (h : ∀ e ∈ l, jsLookup e.1 m = some e.2) :
    (l.map Prod.fst).enum.map (fun q => g ((jsLookup q.2 m).getD d)) =
      l.map (fun e => g e.2) :=
  map_lookup_getD_from m d g 0 l h

/-- The tag-node counts are the sorted tag-statistic counts. -/
theorem flowTagNodes_counts (vd : VideoData) (sc ft : Str) :
    (flowTagNodes vd sc ft).map FlowNode.count =
      ((List.insertionSort (fun a b => b.2.count ≤ a.2.count)
          (flowStats vd sc).tagStats).take (flowPresets ft).2.1).map
        (fun e => e.2.count) := by
  unfold flowTagNodes flowTopTags
  rw [List.map_map]
  rw [show (FlowNode.count ∘ fun (q : Nat × Str) =>
      let info := (jsLookup q.2 (flowStats vd sc).tagStats).getD
        { count := 0, totalViews := 0, categories := [] }
      ({ id := str ("tag_") ++ intToStr (q.1 : Int)
         name := q.2
         type := str ("tag")
         count := info.count
         totalViews := info.totalViews
         avgViews := jsRound ((info.totalViews : ℚ) / (info.count : ℚ))
         connections := info.categories.length } : FlowNode)) =
    (fun (q : Nat × Str) => TagStat.count ((jsLookup q.2 (flowStats vd sc).tagStats).getD
      { count := 0, totalViews := 0, categories := [] })) from rfl]
  exact map_lookup_getD _ _ _ TagStat.count
    (jsLookup_sorted_take _ _ _ (flowStats_nodup vd sc).1)

/-- The category-node counts are the sorted category-statistic counts. -/
theorem flowCatNodes_counts (vd : VideoData) (sc ft : Str) :
    (flowCatNodes vd sc ft).map FlowNode.count =
      ((List.insertionSort (fun a b => b.2.count ≤ a.2.count)
          (flowStats vd sc).catStats).take (flowPresets ft).2.2).map
        (fun e => e.2.count) := by
  unfold flowCatNodes flowTopCategories
  rw [List.map_map]
  rw [show (FlowNode.count ∘ fun (q : Nat × Str) =>
      let info := (jsLookup q.2 (flowStats vd sc).catStats).getD
        { count := 0, totalViews := 0, tags := [] }
      ({ id := str ("category_") ++ intToStr (q.1 : Int)
         name := q.2
         type := str ("category")
         count := info.count
         totalViews := info.totalViews
         avgViews := jsRound ((info.totalViews : ℚ) / (info.count : ℚ))
         connections := info.tags.length } : FlowNode)) =
    (fun (q : Nat × Str) => CatStat.count ((jsLookup q.2 (flowStats vd sc).catStats).getD
      { count := 0, totalViews := 0, tags := [] })) from rfl]
  exact map_lookup_getD _ _ _ CatStat.count
    (jsLookup_sorted_take _ _ _ (flowStats_nodup vd sc).2)

/-- Node names are the top tags followed by the top categories. -/
theorem flowNodes_names (vd : VideoData) (sc ft : Str) :
    (getTagFlowData vd sc ft).nodes.map FlowNode.name =
      flowTopTags vd sc ft ++ flowTopCategories vd sc ft := by
  simp only [getTagFlowData, List.map_append]
  unfold flowTagNodes flowCatNodes
  rw [List.map_map, List.map_map]
  rw [show ∀ m : List (Str × TagStat), (FlowNode.name ∘ fun (q : Nat × Str) =>
      let info := (jsLookup q.2 m).getD { count := 0, totalViews := 0, categories := [] }
      ({ id := str ("tag_") ++ intToStr (q.1 : Int)
         name := q.2
         type := str ("tag")
         count := info.count
         totalViews := info.totalViews
         avgViews := jsRound ((info.totalViews : ℚ) / (info.count : ℚ))
         connections := info.categories.length } : FlowNode)) =
    (fun (q : Nat × Str) => q.2) from fun m => rfl]
  rw [show ∀ m : List (Str × CatStat), (FlowNode.name ∘ fun (q : Nat × Str) =>
      let info := (jsLookup q.2 m).getD { count := 0, totalViews := 0, tags := [] }
      ({ id := str ("category_") ++ intToStr (q.1 : Int)
         name := q.2
         type := str ("category")
         count := info.count
         totalViews := info.totalViews
         avgViews := jsRound ((info.totalViews : ℚ) / (info.count : ℚ))
         connections := info.tags.length } : FlowNode)) =
    (fun (q : Nat × Str) => q.2) from fun m => rfl]
  rw [show (fun (q : Nat × Str) => q.2) = (Prod.snd : Nat × Str → Str) from rfl,
    enum_map_snd, enum_map_snd]

theorem flowTagNodes_length (vd : VideoData) (sc ft : Str) :
    (flowTagNodes vd sc ft).length = (flowTopTags vd sc ft).length := by
  unfold flowTagNodes
  rw [List.length_map, enum_len]

/-- C9 (amended): in `getTagFlowData`'s node list the top tags appear
first, in descending occurrence-count order, and the top categories
appear second — in descending occurrence-count order as well (**not**
alphabetically, see the counterexample) — and a link is emitted only for
a tag→category pair whose co-occurrence count meets the preset's minimum
flow value with both endpoints among the top tags / top categories; every
link's source and target indices resolve to the emitted node carrying
exactly that tag / category name (no dangling references). -/
theorem C9_getTagFlowData (vd : VideoData) (sc ft : Str) :
    (getTagFlowData vd sc ft).nodes.map FlowNode.name =
      flowTopTags vd sc ft ++ flowTopCategories vd sc ft ∧
    (((getTagFlowData vd sc ft).nodes.take (flowTopTags vd sc ft).length).map
      FlowNode.count).Pairwise (fun a b => b ≤ a) ∧
    (((getTagFlowData vd sc ft).nodes.drop (flowTopTags vd sc ft).length).map
      FlowNode.count).Pairwise (fun a b => b ≤ a) ∧
    ∀ link ∈ (getTagFlowData vd sc ft).links,
      (flowPresets ft).1 ≤ link.value ∧
      link.tag ∈ flowTopTags vd sc ft ∧
      link.category ∈ flowTopCategories vd sc ft ∧
      ((getTagFlowData vd sc ft).nodes.map FlowNode.name)[link.source]? = some link.tag ∧
      ((getTagFlowData vd sc ft).nodes.map FlowNode.name)[link.target]? =
        some link.category := by
  haveI hT : IsTotal (Str × TagStat) (fun a b => b.2.count ≤ a.2.count) :=
    ⟨fun a b => Nat.le_total _ _⟩
  haveI hTt : IsTrans (Str × TagStat) (fun a b => b.2.count ≤ a.2.count) :=
    ⟨fun a b c h1 h2 => le_trans h2 h1⟩
  haveI hC : IsTotal (Str × CatStat) (fun a b => b.2.count ≤ a.2.count) :=
    ⟨fun a b => Nat.le_total _ _⟩
  haveI hCt : IsTrans (Str × CatStat) (fun a b => b.2.count ≤ a.2.count) :=
    ⟨fun a b c h1 h2 => le_trans h2 h1⟩
  refine ⟨flowNodes_names vd sc ft, ?_, ?_, ?_⟩
  · show (((flowTagNodes vd sc ft ++ flowCatNodes vd sc ft).take
      (flowTopTags vd sc ft).length).map FlowNode.count).Pairwise (fun a b => b ≤ a)
    rw [List.take_left' (flowTagNodes_length vd sc ft), flowTagNodes_counts]
    apply List.pairwise_map.mpr
    apply List.Pairwise.sublist (List.take_sublist _ _)
    exact List.sorted_insertionSort _ _
  · show (((flowTagNodes vd sc ft ++ flowCatNodes vd sc ft).drop
      (flowTopTags vd sc ft).length).map FlowNode.count).Pairwise (fun a b => b ≤ a)
    rw [List.drop_left' (flowTagNodes_length vd sc ft), flowCatNodes_counts]
    apply List.pairwise_map.mpr
    apply List.Pairwise.sublist (List.take_sublist _ _)
    exact List.sorted_insertionSort _ _
  · intro link hlink
    have hnames := flowNodes_names vd sc ft
    simp only [getTagFlowData] at hlink
    unfold flowLinks at hlink
    obtain ⟨flow, hflow, hmk⟩ := List.mem_filterMap.mp hlink
    have hprops := (List.mem_filter.mp hflow).2
    simp only [Bool.and_eq_true, decide_eq_true_eq] at hprops
    obtain ⟨⟨hcount, htag⟩, hcat⟩ := hprops
    cases hsi : (flowTopTags vd sc ft).findIdx? (fun t => decide (t = flow.tag)) with
    | none => rw [hsi] at hmk; cases hmk
    | some si =>
      cases hti : (flowTopCategories vd sc ft).findIdx? (fun c => decide (c = flow.category)) with
      | none => rw [hsi, hti] at hmk; cases hmk
      | some ti =>
        rw [hsi, hti] at hmk
        rw [Option.some.injEq] at hmk
        obtain ⟨hsilt, hsitag, _⟩ := List.findIdx?_eq_some_iff_getElem.mp hsi
        obtain ⟨htilt, hticat, _⟩ := List.findIdx?_eq_some_iff_getElem.mp hti
        rw [decide_eq_true_eq] at hsitag hticat
        subst hmk
        refine ⟨hcount, htag, hcat, ?_, ?_⟩
        · show ((getTagFlowData vd sc ft).nodes.map FlowNode.name)[si]? = some flow.tag
          rw [hnames, List.getElem?_append_left hsilt, List.getElem?_eq_getElem hsilt,
            hsitag]
        · show ((getTagFlowData vd sc ft).nodes.map
            FlowNode.name)[(flowTopTags vd sc ft).length + ti]? = some flow.category
          rw [hnames, List.getElem?_append_right (Nat.le_add_right _ _)]
          rw [show (flowTopTags vd sc ft).length + ti - (flowTopTags vd sc ft).length = ti by
            omega]
          rw [List.getElem?_eq_getElem htilt, hticat]

/-- Witness for C9: the amended theorem applied to a concrete state whose
flow data has one tag node, two category nodes and whose only qualifying
pairs fall below the minimum flow value (so its link facts are about the
emitted, empty link list). -/
theorem C9_getTagFlowData_witness :
    (getTagFlowData demoHeatVD (str ("global")) (str ("balanced"))).nodes.map FlowNode.name =
      flowTopTags demoHeatVD (str ("global")) (str ("balanced")) ++
        flowTopCategories demoHeatVD (str ("global")) (str ("balanced")) ∧
    (((getTagFlowData demoHeatVD (str ("global")) (str ("balanced"))).nodes.take
      (flowTopTags demoHeatVD (str ("global")) (str ("balanced"))).length).map
        FlowNode.count).Pairwise (fun a b => b ≤ a) ∧
    (((getTagFlowData demoHeatVD (str ("global")) (str ("balanced"))).nodes.drop
      (flowTopTags demoHeatVD (str ("global")) (str ("balanced"))).length).map
        FlowNode.count).Pairwise (fun a b => b ≤ a) ∧
    ∀ link ∈ (getTagFlowData demoHeatVD (str ("global")) (str ("balanced"))).links,
      (flowPresets (str ("balanced"))).1 ≤ link.value ∧
      link.tag ∈ flowTopTags demoHeatVD (str ("global")) (str ("balanced")) ∧
      link.category ∈ flowTopCategories demoHeatVD (str ("global")) (str ("balanced")) ∧
      ((getTagFlowData demoHeatVD (str ("global")) (str ("balanced"))).nodes.map
        FlowNode.name)[link.source]? = some link.tag ∧
      ((getTagFlowData demoHeatVD (str ("global")) (str ("balanced"))).nodes.map
        FlowNode.name)[link.target]? = some link.category :=
  C9_getTagFlowData demoHeatVD (str ("global")) (str ("balanced"))

/-- Counterexample for C9 as stated: the category nodes of a state whose
`Bcat` count exceeds its `Acat` count come out as `[Bcat, Acat]` — sorted
by descending count, not alphabetically (`Bcat` does not precede `Acat`
as a string). -/
theorem C9_getTagFlowData_counterexample :
    ((getTagFlowData demoHeatVD (str ("global")) (str ("balanced"))).nodes.filter
        (fun n => decide (n.type = str ("category")))).map FlowNode.name =
      [str ("Bcat"), str ("Acat")] ∧
    strLEb (str ("Bcat")) (str ("Acat")) = false := by
  constructor
  · decide
  · decide

end YTViz
